import Mathlib

/-!
The program server_tcp.c: a key-value server over files.

Shallow embedding of `procesar_comando` (src/server_tcp.c).

* Bytes are natural numbers; a C string is the run of non-zero bytes that
  starts at an offset of a buffer.
* The working directory is an association list from file names to file
  contents (`Disco`).  Path resolution is not modelled: a name is an opaque
  byte string.
* The outcome of each system call that the handler checks (or ignores) is
  supplied by an `Entorno`, so every error branch of the source is present.
* The libc routines that scan the line (`strchr`, `strtok`) are modelled on
  the buffer with explicit offsets.  The dispatch receives each token as the
  C string it points to, so `strcmp` is equality of byte lists, and
  `strlen(valor)` bytes of `valor` as well as the `%s` conversion are the
  whole C string.
-/

namespace ServerTcp

/-! ## Bytes and C strings -/

abbrev Byte := Nat
abbrev Bytes := List Nat

/-- UTF-8 bytes of a string literal of the source file. -/
def utf8 (s : String) : Bytes :=
  s.toList.flatMap fun c => (String.utf8EncodeChar c).map fun b => b.toNat

def PORT : Nat := 5000
def MAX_CMD_LEN : Nat := 1024
def RESPONSE_OK : Bytes := utf8 "OK\n"
def RESPONSE_NOTFOUND : Bytes := utf8 "NOTFOUND\n"

/-- The C string that starts at offset `i` of `buf`: the bytes before the
first NUL. -/
def cadena (buf : Bytes) (i : Nat) : Bytes :=
  (buf.drop i).takeWhile fun b => b != 0

/-- Offset of the first occurrence of the byte `c` in the C string at
offset `i`, as `strchr(buf + i, c)` for `c` other than NUL; `none` is NULL. -/
def strchr (buf : Bytes) (i : Nat) (c : Byte) : Option Nat :=
  let s := cadena buf i
  let n := (s.takeWhile fun b => b != c).length
  if n < s.length then some (i + n) else none

/-- Length of the initial segment of the C string at `i` made of bytes of
`delim`, as `strspn`. -/
def strspn (buf : Bytes) (i : Nat) (delim : Bytes) : Nat :=
  ((cadena buf i).takeWhile fun b => delim.contains b).length

/-- Length of the initial segment of the C string at `i` made of bytes not
in `delim`, as `strcspn`. -/
def strcspn (buf : Bytes) (i : Nat) (delim : Bytes) : Nat :=
  ((cadena buf i).takeWhile fun b => !delim.contains b).length

/-- One call of `strtok`, with the scan position `s` made explicit (the
string passed by the caller on the first call, the saved position on the
calls with NULL).  Returns the token (offset, or `none` for NULL), the buffer
after the call and the position saved for the next call. -/
def strtok (buf : Bytes) (s : Nat) (delim : Bytes) : Option Nat × Bytes × Nat :=
  let ini := s + strspn buf s delim
  if buf.getD ini 0 = 0 then (none, buf, ini)
  else
    let fin := ini + strcspn buf ini delim
    if buf.getD fin 0 = 0 then (some ini, buf, fin)
    else (some ini, buf.set fin 0, fin + 1)

/-- Indexed store `buf[i] = b`; `none` when `i` is outside the buffer. -/
def poner (buf : Bytes) (i : Nat) (b : Byte) : Option Bytes :=
  if i < buf.length then some (buf.set i b) else none

/-- The first `datos.length` bytes of `buf` overwritten by `datos`, as a
`read` that delivered `datos` into `buf`. -/
def copiar (buf : Bytes) (datos : Bytes) : Bytes :=
  datos ++ buf.drop datos.length

/-! ## The files of the working directory -/

/-- The regular files of the working directory: name and content. -/
abbrev Disco := List (Bytes × Bytes)

/-- Content of the file called `nombre`, if there is one. -/
def buscar (d : Disco) (nombre : Bytes) : Option Bytes :=
  (d.find? fun e => e.1 == nombre).map fun e => e.2

/-- The directory without the file called `nombre`. -/
def quitar (d : Disco) (nombre : Bytes) : Disco :=
  d.filter fun e => !(e.1 == nombre)

/-- The directory where the file `nombre` holds exactly `contenido`. -/
def guardar (d : Disco) (nombre contenido : Bytes) : Disco :=
  (nombre, contenido) :: quitar d nombre

/-- Outcomes of the system calls of one run of the handler that do not
follow from the directory content: `true` means the call returns -1. -/
structure Entorno where
  falla_open_escritura : Bool
  falla_write : Bool
  falla_open_lectura : Bool
  falla_read : Bool
  falla_unlink : Bool
deriving DecidableEq, Repr

/-- An environment in which no system call fails on its own account. -/
def Entorno.sano : Entorno := ⟨false, false, false, false, false⟩

/-- The call `open(nombre, O_WRONLY | O_CREAT | O_TRUNC, 0644)`: on success
the file exists and is empty, and the descriptor designates it. -/
def open_escritura (env : Entorno) (d : Disco) (nombre : Bytes) : Option Bytes × Disco :=
  if env.falla_open_escritura then (none, d) else (some nombre, guardar d nombre [])

/-- The call `write(archivo, datos, n)` on a descriptor just opened by
`open_escritura`; the result is the count written, or -1. -/
def write_archivo (env : Entorno) (d : Disco) (archivo : Bytes) (datos : Bytes) : Int × Disco :=
  if env.falla_write then (-1, d) else (datos.length, guardar d archivo datos)

/-- The call `open(nombre, O_RDONLY)`: fails when the file does not exist. -/
def open_lectura (env : Entorno) (d : Disco) (nombre : Bytes) : Option Bytes :=
  if env.falla_open_lectura then none
  else match buscar d nombre with
    | none => none
    | some _ => some nombre

/-- The call `read(archivo, buf, n)` at offset 0 of an open file: the count
(or -1) and the buffer after the call. -/
def read_archivo (env : Entorno) (d : Disco) (archivo : Bytes) (buf : Bytes) (n : Nat) :
    Int × Bytes :=
  if env.falla_read then (-1, buf)
  else
    let datos := ((buscar d archivo).getD []).take n
    (datos.length, copiar buf datos)

/-- The call `unlink(nombre)`; the handler ignores its result. -/
def unlink (env : Entorno) (d : Disco) (nombre : Bytes) : Disco :=
  if env.falla_unlink then d else quitar d nombre

/-- The call `read(cliente_fd, buf, n)`: `none` is a failed read, `some bs`
the bytes pending on the connection, of which at most `n` are delivered. -/
def read_cliente (cliente : Option Bytes) (buf : Bytes) (n : Nat) : Int × Bytes :=
  match cliente with
  | none => (-1, buf)
  | some bs => (((bs.take n).length : Nat), copiar buf (bs.take n))

/-! ## The handler -/

/-- How a run of the handler ends. -/
inductive Final where
  /-- The function returns to its caller. -/
  | retorna
  /-- The process ends through `error_exit` (`exit(EXIT_FAILURE)`). -/
  | termina_proceso
  /-- An indexed store fell outside its buffer. -/
  | fuera_de_rango
deriving DecidableEq, Repr

/-- What a run of the handler leaves behind: the directory, the writes made
on the client connection (in order) and how the run ended. -/
structure Resultado where
  disco : Disco
  enviado : List Bytes
  final : Final
deriving DecidableEq, Repr

/-- The function `error_exit`: reports and ends the process. -/
def error_exit (d : Disco) : Resultado := ⟨d, [], Final.termina_proceso⟩

def ERROR_INVALIDO : Bytes := utf8 "ERROR comando inválido\n"
def ERROR_ABRIR : Bytes := utf8 "ERROR al abrir archivo\n"
def ERROR_ESCRIBIR : Bytes := utf8 "ERROR al escribir archivo\n"
def ERROR_LEER : Bytes := utf8 "ERROR al leer archivo\n"
def ERROR_DESCONOCIDO : Bytes := utf8 "ERROR comando desconocido\n"

/-- The body of `procesar_comando` from the validation of the tokens on
(source lines 66-112); each token is given by the C string it points to,
`none` standing for NULL. -/
def despachar (env : Entorno) (d : Disco) (comando clave valor : Option Bytes) : Resultado :=
  match comando, clave with
  | none, _ => ⟨d, [ERROR_INVALIDO], Final.retorna⟩
  | _, none => ⟨d, [ERROR_INVALIDO], Final.retorna⟩
  | some comando, some clave =>
    if comando = utf8 "SET" then
      match open_escritura env d clave with
      | (none, d1) => ⟨d1, [ERROR_ABRIR], Final.retorna⟩
      | (some archivo, d1) =>
        match valor with
        | none => ⟨d1, [RESPONSE_OK], Final.retorna⟩
        | some valor =>
          let w := write_archivo env d1 archivo valor
          if w.1 < 0 then ⟨w.2, [ERROR_ESCRIBIR], Final.retorna⟩
          else ⟨w.2, [RESPONSE_OK], Final.retorna⟩
    else if comando = utf8 "GET" then
      match open_lectura env d clave with
      | none => ⟨d, [RESPONSE_NOTFOUND], Final.retorna⟩
      | some archivo =>
        let contenido := List.replicate 4096 0
        let r := read_archivo env d archivo contenido (4096 - 1)
        if r.1 < 0 then ⟨d, [ERROR_LEER], Final.retorna⟩
        else
          match poner r.2 r.1.toNat 0 with
          | none => ⟨d, [], Final.fuera_de_rango⟩
          | some contenido =>
            ⟨d, [utf8 "OK\n" ++ cadena contenido 0 ++ utf8 "\n"], Final.retorna⟩
    else if comando = utf8 "DEL" then
      ⟨unlink env d clave, [RESPONSE_OK], Final.retorna⟩
    else ⟨d, [ERROR_DESCONOCIDO], Final.retorna⟩

/-- The tokenising of the line (source lines 60-63): three calls of `strtok`
on the buffer, the second and third resuming at the saved position.  Each
token is returned as the C string it points to in the final buffer. -/
def analizar (linea : Bytes) : Option Bytes × Option Bytes × Option Bytes :=
  let t1 := strtok linea 0 (utf8 " ")
  let t2 := strtok t1.2.1 t1.2.2 (utf8 " ")
  let t3 := strtok t2.2.1 t2.2.2 (utf8 "")
  let linea := t3.2.1
  (t1.1.map (cadena linea), t2.1.map (cadena linea), t3.1.map (cadena linea))

/-- The buffer after the newline removal (source lines 56-58): the first
newline of the C string, if any, is overwritten by NUL. -/
def quitar_salto (linea : Bytes) : Bytes :=
  match strchr linea 0 10 with
  | some salto => linea.set salto 0
  | none => linea

/-- The function `procesar_comando`: one read from the client, removal of
the newline, tokenising, and the dispatch on the command. -/
def procesar_comando (env : Entorno) (d : Disco) (cliente : Option Bytes) : Resultado :=
  let linea := List.replicate (MAX_CMD_LEN + 1) 0
  let r := read_cliente cliente linea MAX_CMD_LEN
  let leidos := r.1
  if leidos < 0 then error_exit d
  else
    match poner r.2 leidos.toNat 0 with
    | none => ⟨d, [], Final.fuera_de_rango⟩
    | some linea =>
      let p := analizar (quitar_salto linea)
      despachar env d p.1 p.2.1 p.2.2

/-! ## Vocabulary of the statements -/

/-- A run of spaces. -/
abbrev espacios (sp : Bytes) : Prop := ∀ b ∈ sp, b = 32

/-- A word: a non-empty run of bytes other than space and NUL. -/
abbrev palabra (w : Bytes) : Prop := w ≠ [] ∧ ∀ b ∈ w, b ≠ 32 ∧ b ≠ 0

/-- A key of the protocol: non-empty, without space, newline or NUL. -/
abbrev clave_valida (k : Bytes) : Prop := k ≠ [] ∧ ∀ b ∈ k, b ≠ 32 ∧ b ≠ 10 ∧ b ≠ 0

/-- A value of the protocol: without newline or NUL (spaces allowed). -/
abbrev valor_valido (v : Bytes) : Prop := ∀ b ∈ v, b ≠ 10 ∧ b ≠ 0

/-- The request `SET k v` with its newline. -/
def pedido_set (k v : Bytes) : Bytes := utf8 "SET " ++ k ++ utf8 " " ++ v ++ utf8 "\n"

/-- The request `SET k` (no value) with its newline. -/
def pedido_set_vacio (k : Bytes) : Bytes := utf8 "SET " ++ k ++ utf8 "\n"

/-- The request `GET k` with its newline. -/
def pedido_get (k : Bytes) : Bytes := utf8 "GET " ++ k ++ utf8 "\n"

/-- The request `DEL k` with its newline. -/
def pedido_del (k : Bytes) : Bytes := utf8 "DEL " ++ k ++ utf8 "\n"

/-- The line the handler works on: the bytes delivered by the read, up to
the first NUL and then up to the first newline. -/
def linea_de (bs : Bytes) : Bytes :=
  ((bs.take MAX_CMD_LEN).takeWhile fun b => b != 0).takeWhile fun b => b != 10


/-! ## The accept loop of `main` -/

/-- One turn of the accept loop: `accept` fails, or a client is accepted;
for a client, the outcomes of the system calls of its run and what its read
delivers. -/
inductive Turno where
  | accept_falla
  | cliente (env : Entorno) (lectura : Option Bytes)

/-- The server after some turns: the directory, the writes made to each
accepted client (in order of arrival) and whether the process still runs. -/
structure Servidor where
  disco : Disco
  respuestas : List (List Bytes)
  en_marcha : Bool
deriving DecidableEq, Repr

/-- The loop `while (1)` of `main` (source lines 140-151) over the turns
given: a failed `accept` is reported and skipped; an accepted client is
handed to `procesar_comando` and then closed; the loop goes on only if the
handler returned. -/
def bucle (d : Disco) : List Turno → Servidor
  | [] => ⟨d, [], true⟩
  | Turno.accept_falla :: resto => bucle d resto
  | Turno.cliente env lectura :: resto =>
    let r := procesar_comando env d lectura
    match r.final with
    | Final.retorna =>
      let s := bucle r.disco resto
      ⟨s.disco, r.enviado :: s.respuestas, s.en_marcha⟩
    | _ => ⟨r.disco, [r.enviado], false⟩

/-- The function `main`: the socket is created, bound and put to listen,
each failure ending the process through `error_exit`; then the loop. -/
def main (falla_socket falla_bind falla_listen : Bool) (d : Disco) (turnos : List Turno) :
    Servidor :=
  if falla_socket then ⟨d, [], false⟩
  else if falla_bind then ⟨d, [], false⟩
  else if falla_listen then ⟨d, [], false⟩
  else bucle d turnos

/-- Every file holds at most 1018 bytes and no NUL byte. -/
abbrev valores_acotados (d : Disco) : Prop :=
  ∀ e ∈ d, e.2.length ≤ 1018 ∧ ∀ b ∈ e.2, b ≠ 0

/-! ## Buffers: reading and writing at the end of a known segment -/

theorem getD_tras (pre : Bytes) (x : Byte) (post : Bytes) :
    (pre ++ x :: post).getD pre.length 0 = x := by
  induction pre with
  | nil => rfl
  | cons a pre ih => simpa using ih

theorem set_tras (pre : Bytes) (x y : Byte) (post : Bytes) :
    (pre ++ x :: post).set pre.length y = pre ++ y :: post := by
  induction pre with
  | nil => rfl
  | cons a pre ih => simp [ih]

theorem cadena_tras (pre l : Bytes) :
    cadena (pre ++ l) pre.length = l.takeWhile fun b => b != 0 := by
  simp [cadena]

theorem takeWhile_hasta (p : Nat → Bool) (l : Bytes) (x : Byte) (post : Bytes)
    (hl : ∀ b ∈ l, p b = true) (hx : p x = false) :
    (l ++ x :: post).takeWhile p = l := by
  rw [List.takeWhile_append_of_pos hl, List.takeWhile_cons_of_neg (by simp [hx])]
  simp

/-- The C string at the end of `pre` is `l` when `l` has no NUL and is
followed by one. -/
theorem cadena_hasta_nul (buf pre l post : Bytes) (hbuf : buf = pre ++ (l ++ 0 :: post))
    (hl : ∀ b ∈ l, b ≠ 0) : cadena buf pre.length = l := by
  subst hbuf
  rw [cadena_tras]
  exact takeWhile_hasta _ l 0 post (by simpa using hl) (by simp)

/-! ## The three outcomes of a call of `strtok` -/

/-- Only delimiters are left before the end of the string: NULL. -/
theorem strtok_nada (delim pre sp post buf : Bytes) (s : Nat)
    (hbuf : buf = pre ++ (sp ++ 0 :: post)) (hpos : s = pre.length)
    (hsp : ∀ b ∈ sp, delim.contains b = true ∧ b ≠ 0) :
    strtok buf s delim = (none, buf, (pre ++ sp).length) := by
  subst hpos
  have hc : cadena buf pre.length = sp :=
    cadena_hasta_nul buf pre sp post hbuf fun b hb => (hsp b hb).2
  have hs : strspn buf pre.length delim = sp.length := by
    unfold strspn
    rw [hc, List.takeWhile_eq_self_iff.2 fun b hb => (hsp b hb).1]
  have hg : buf.getD (pre.length + sp.length) 0 = 0 := by
    have := getD_tras (pre ++ sp) 0 post
    subst hbuf
    simpa using this
  unfold strtok
  simp only [hs, hg, if_true, List.length_append]

/-- The token runs up to the end of the string: the buffer is not changed. -/
theorem strtok_ultimo (delim pre sp tok post buf : Bytes) (s : Nat)
    (hbuf : buf = pre ++ (sp ++ (tok ++ 0 :: post))) (hpos : s = pre.length)
    (hsp : ∀ b ∈ sp, delim.contains b = true ∧ b ≠ 0)
    (htok : ∀ b ∈ tok, delim.contains b = false ∧ b ≠ 0) (hne : tok ≠ []) :
    strtok buf s delim = (some (pre ++ sp).length, buf, (pre ++ (sp ++ tok)).length) := by
  subst hpos
  obtain ⟨t, ts, rfl⟩ := List.exists_cons_of_ne_nil hne
  have ht := htok t (by simp)
  have hc : cadena buf pre.length = sp ++ t :: ts := by
    refine cadena_hasta_nul buf pre (sp ++ t :: ts) post (by simp [hbuf]) ?_
    intro b hb
    rcases List.mem_append.1 hb with h | h
    · exact (hsp b h).2
    · exact (htok b h).2
  have hs : strspn buf pre.length delim = sp.length := by
    unfold strspn
    rw [hc, takeWhile_hasta _ sp t ts (fun b hb => (hsp b hb).1) ht.1]
  have hg : buf.getD (pre.length + sp.length) 0 = t := by
    have := getD_tras (pre ++ sp) t (ts ++ 0 :: post)
    subst hbuf
    simpa using this
  have hc2 : cadena buf (pre.length + sp.length) = t :: ts := by
    have := cadena_hasta_nul buf (pre ++ sp) (t :: ts) post (by simp [hbuf])
      (fun b hb => (htok b hb).2)
    simpa using this
  have hs2 : strcspn buf (pre.length + sp.length) delim = (t :: ts).length := by
    unfold strcspn
    rw [hc2, List.takeWhile_eq_self_iff.2 fun b hb => by simpa using (htok b hb).1]
  have hg2 : buf.getD (pre.length + sp.length + (t :: ts).length) 0 = 0 := by
    have := getD_tras (pre ++ sp ++ t :: ts) 0 post
    subst hbuf
    simpa [Nat.add_assoc] using this
  unfold strtok
  simp only [hs, hg, hs2, hg2, if_neg ht.2, if_true]
  simp only [List.length_append, Nat.add_assoc]

/-- The token is followed by a delimiter: the delimiter is overwritten by
NUL and the scan resumes after it. -/
theorem strtok_medio (delim pre sp tok : Bytes) (x : Byte) (post buf : Bytes) (s : Nat)
    (hbuf : buf = pre ++ (sp ++ (tok ++ x :: post))) (hpos : s = pre.length)
    (hsp : ∀ b ∈ sp, delim.contains b = true ∧ b ≠ 0)
    (htok : ∀ b ∈ tok, delim.contains b = false ∧ b ≠ 0) (hne : tok ≠ [])
    (hx : delim.contains x = true ∧ x ≠ 0) :
    strtok buf s delim
      = (some (pre ++ sp).length, pre ++ (sp ++ (tok ++ 0 :: post)),
          (pre ++ (sp ++ (tok ++ [0]))).length) := by
  subst hpos
  obtain ⟨t, ts, rfl⟩ := List.exists_cons_of_ne_nil hne
  have ht := htok t (by simp)
  have hs : strspn buf pre.length delim = sp.length := by
    unfold strspn
    rw [hbuf, cadena_tras,
      List.takeWhile_append_of_pos (by simpa using fun b hb => (hsp b hb).2),
      List.cons_append, List.takeWhile_cons_of_pos (by simpa using ht.2),
      takeWhile_hasta _ sp t _ (fun b hb => (hsp b hb).1) ht.1]
  have hg : buf.getD (pre.length + sp.length) 0 = t := by
    have := getD_tras (pre ++ sp) t (ts ++ x :: post)
    subst hbuf
    simpa using this
  have hs2 : strcspn buf (pre.length + sp.length) delim = (t :: ts).length := by
    unfold strcspn
    have hc := cadena_tras (pre ++ sp) (t :: ts ++ x :: post)
    simp only [List.length_append, List.append_assoc] at hc
    rw [hbuf, hc, List.takeWhile_append_of_pos (by simpa using fun b hb => (htok b hb).2),
      List.takeWhile_cons_of_pos (by simpa using hx.2),
      takeWhile_hasta _ (t :: ts) x _ (fun b hb => by simpa using (htok b hb).1)
        (by simpa using hx.1)]
  have hg2 : buf.getD (pre.length + sp.length + (t :: ts).length) 0 = x := by
    have := getD_tras (pre ++ sp ++ t :: ts) x post
    subst hbuf
    simpa [Nat.add_assoc] using this
  have hset : buf.set (pre.length + sp.length + (t :: ts).length) 0
      = pre ++ (sp ++ (t :: ts ++ 0 :: post)) := by
    have := set_tras (pre ++ sp ++ t :: ts) x 0 post
    subst hbuf
    simp only [List.length_append, List.append_assoc] at this
    simpa only [Nat.add_assoc] using this
  unfold strtok
  simp only [hs, hg, hs2, hg2, hset, if_neg ht.2, if_neg hx.2]
  simp only [List.length_append, List.length_cons, List.length_nil, Nat.add_assoc]

/-! ## The tokens of a line -/

theorem utf8_espacio : utf8 " " = [32] := by decide

theorem utf8_vacio : utf8 "" = [] := by decide

theorem espacios_delim {sp : Bytes} (h : espacios sp) :
    ∀ b ∈ sp, [32].contains b = true ∧ b ≠ 0 := by
  intro b hb
  have := h b hb
  subst this
  decide

theorem palabra_delim {w : Bytes} (h : palabra w) :
    ∀ b ∈ w, [32].contains b = false ∧ b ≠ 0 := by
  intro b hb
  have := h.2 b hb
  refine ⟨?_, this.2⟩
  simpa using this.1

/-- The tokens, given the outcome of each of the three calls. -/
theorem analizar_eq {linea b1 b2 b3 : Bytes} {s1 s2 s3 : Nat} {t1 t2 t3 : Option Nat}
    (h1 : strtok linea 0 [32] = (t1, b1, s1)) (h2 : strtok b1 s1 [32] = (t2, b2, s2))
    (h3 : strtok b2 s2 [] = (t3, b3, s3)) :
    analizar linea = (t1.map (cadena b3), t2.map (cadena b3), t3.map (cadena b3)) := by
  simp only [analizar, utf8_espacio, utf8_vacio, h1, h2, h3]

/-- Command, key and value. -/
theorem analizar_tres (sp c sp1 k v post : Bytes) (hsp : espacios sp) (hc : palabra c)
    (hsp1 : espacios sp1) (hk : palabra k) (hv : ∀ b ∈ v, b ≠ 0) (hne : v ≠ []) :
    analizar (sp ++ (c ++ 32 :: (sp1 ++ (k ++ 32 :: (v ++ 0 :: post)))))
      = (some c, some k, some v) := by
  refine Eq.trans (analizar_eq
    (strtok_medio [32] [] sp c 32 (sp1 ++ (k ++ 32 :: (v ++ 0 :: post))) _ 0 rfl rfl
      (espacios_delim hsp) (palabra_delim hc) hc.1 (by decide))
    (strtok_medio [32] ([] ++ (sp ++ (c ++ [0]))) sp1 k 32 (v ++ 0 :: post) _ _ (by simp) rfl
      (espacios_delim hsp1) (palabra_delim hk) hk.1 (by decide))
    (strtok_ultimo [] ([] ++ (sp ++ (c ++ [0])) ++ (sp1 ++ (k ++ [0]))) [] v post _ _
      (by simp) rfl (by simp) (by simpa using hv) hne)) ?_
  simp only [Option.map_some']
  rw [cadena_hasta_nul _ ([] ++ sp) c (sp1 ++ (k ++ 0 :: (v ++ 0 :: post))) (by simp)
      fun b hb => (hc.2 b hb).2,
    cadena_hasta_nul _ ([] ++ (sp ++ (c ++ [0])) ++ sp1) k (v ++ 0 :: post) (by simp)
      fun b hb => (hk.2 b hb).2,
    cadena_hasta_nul _ ([] ++ (sp ++ (c ++ [0])) ++ (sp1 ++ (k ++ [0])) ++ []) v post (by simp) hv]

/-- Nothing but spaces: no token at all. -/
theorem analizar_ninguno (sp post : Bytes) (hsp : espacios sp) :
    analizar (sp ++ 0 :: post) = (none, none, none) := by
  refine Eq.trans (analizar_eq
    (strtok_nada [32] [] sp post _ 0 rfl rfl (espacios_delim hsp))
    (strtok_nada [32] ([] ++ sp) [] post _ _ (by simp) rfl (by simp))
    (strtok_nada [] ([] ++ sp ++ []) [] post _ _ (by simp) rfl (by simp))) ?_
  rfl

/-- A single word, up to the end of the line. -/
theorem analizar_uno_fin (sp c post : Bytes) (hsp : espacios sp) (hc : palabra c) :
    analizar (sp ++ (c ++ 0 :: post)) = (some c, none, none) := by
  refine Eq.trans (analizar_eq
    (strtok_ultimo [32] [] sp c post _ 0 rfl rfl (espacios_delim hsp) (palabra_delim hc) hc.1)
    (strtok_nada [32] ([] ++ (sp ++ c)) [] post _ _ (by simp) rfl (by simp))
    (strtok_nada [] ([] ++ (sp ++ c) ++ []) [] post _ _ (by simp) rfl (by simp))) ?_
  simp only [Option.map_some', Option.map_none']
  rw [cadena_hasta_nul _ ([] ++ sp) c post (by simp) fun b hb => (hc.2 b hb).2]

/-- A single word followed by spaces only. -/
theorem analizar_uno_esp (sp c sp1 post : Bytes) (hsp : espacios sp) (hc : palabra c)
    (hsp1 : espacios sp1) :
    analizar (sp ++ (c ++ 32 :: (sp1 ++ 0 :: post))) = (some c, none, none) := by
  refine Eq.trans (analizar_eq
    (strtok_medio [32] [] sp c 32 (sp1 ++ 0 :: post) _ 0 rfl rfl (espacios_delim hsp)
      (palabra_delim hc) hc.1 (by decide))
    (strtok_nada [32] ([] ++ (sp ++ (c ++ [0]))) sp1 post _ _ (by simp) rfl
      (espacios_delim hsp1))
    (strtok_nada [] ([] ++ (sp ++ (c ++ [0])) ++ sp1) [] post _ _ (by simp) rfl (by simp))) ?_
  simp only [Option.map_some', Option.map_none']
  rw [cadena_hasta_nul _ ([] ++ sp) c (sp1 ++ 0 :: post) (by simp) fun b hb => (hc.2 b hb).2]

/-- Two words, the second up to the end of the line. -/
theorem analizar_dos_fin (sp c sp1 k post : Bytes) (hsp : espacios sp) (hc : palabra c)
    (hsp1 : espacios sp1) (hk : palabra k) :
    analizar (sp ++ (c ++ 32 :: (sp1 ++ (k ++ 0 :: post)))) = (some c, some k, none) := by
  refine Eq.trans (analizar_eq
    (strtok_medio [32] [] sp c 32 (sp1 ++ (k ++ 0 :: post)) _ 0 rfl rfl (espacios_delim hsp)
      (palabra_delim hc) hc.1 (by decide))
    (strtok_ultimo [32] ([] ++ (sp ++ (c ++ [0]))) sp1 k post _ _ (by simp) rfl
      (espacios_delim hsp1) (palabra_delim hk) hk.1)
    (strtok_nada [] ([] ++ (sp ++ (c ++ [0])) ++ (sp1 ++ k)) [] post _ _ (by simp) rfl
      (by simp))) ?_
  simp only [Option.map_some', Option.map_none']
  rw [cadena_hasta_nul _ ([] ++ sp) c (sp1 ++ (k ++ 0 :: post)) (by simp)
      fun b hb => (hc.2 b hb).2,
    cadena_hasta_nul _ ([] ++ (sp ++ (c ++ [0])) ++ sp1) k post (by simp)
      fun b hb => (hk.2 b hb).2]

/-- Two words and one space after the second: the value is NULL. -/
theorem analizar_dos_esp (sp c sp1 k post : Bytes) (hsp : espacios sp) (hc : palabra c)
    (hsp1 : espacios sp1) (hk : palabra k) :
    analizar (sp ++ (c ++ 32 :: (sp1 ++ (k ++ 32 :: 0 :: post)))) = (some c, some k, none) := by
  refine Eq.trans (analizar_eq
    (strtok_medio [32] [] sp c 32 (sp1 ++ (k ++ 32 :: 0 :: post)) _ 0 rfl rfl
      (espacios_delim hsp) (palabra_delim hc) hc.1 (by decide))
    (strtok_medio [32] ([] ++ (sp ++ (c ++ [0]))) sp1 k 32 (0 :: post) _ _ (by simp) rfl
      (espacios_delim hsp1) (palabra_delim hk) hk.1 (by decide))
    (strtok_nada [] ([] ++ (sp ++ (c ++ [0])) ++ (sp1 ++ (k ++ [0]))) [] post _ _ (by simp) rfl
      (by simp))) ?_
  simp only [Option.map_some', Option.map_none']
  rw [cadena_hasta_nul _ ([] ++ sp) c (sp1 ++ (k ++ 0 :: 0 :: post)) (by simp)
      fun b hb => (hc.2 b hb).2,
    cadena_hasta_nul _ ([] ++ (sp ++ (c ++ [0])) ++ sp1) k (0 :: post) (by simp)
      fun b hb => (hk.2 b hb).2]

/-! ## From the read to the line -/

theorem dropWhile_forma (p : Nat → Bool) (l : Bytes) :
    l.dropWhile p = [] ∨ ∃ x r, l.dropWhile p = x :: r ∧ p x = false := by
  induction l with
  | nil => exact Or.inl rfl
  | cons a l ih =>
    by_cases h : p a = true
    · simpa [List.dropWhile_cons, h] using ih
    · exact Or.inr ⟨a, l, by simp [List.dropWhile_cons, h], by simpa using h⟩

theorem linea_de_mem {bs : Bytes} {b : Byte} (h : b ∈ linea_de bs) : b ≠ 0 ∧ b ≠ 10 := by
  unfold linea_de at h
  have h10 := List.mem_takeWhile_imp h
  have h0 := List.mem_takeWhile_imp ((List.takeWhile_sublist _).subset h)
  exact ⟨by simpa using h0, by simpa using h10⟩

/-- After the newline removal the buffer holds the line, then a NUL. -/
theorem quitar_salto_eq (datos z : Bytes) :
    ∃ post, quitar_salto (datos ++ 0 :: z)
      = ((datos.takeWhile fun b => b != 0).takeWhile fun b => b != 10) ++ 0 :: post := by
  obtain ⟨r, hr⟩ : ∃ r, datos ++ 0 :: z = (datos.takeWhile fun b => b != 0) ++ 0 :: r := by
    rcases dropWhile_forma (fun b => b != 0) datos with h | ⟨x, r, h, hx⟩
    · refine ⟨z, ?_⟩
      conv_lhs => rw [← List.takeWhile_append_dropWhile (fun b => b != 0) datos, h]
      simp
    · refine ⟨r ++ 0 :: z, ?_⟩
      have hx0 : x = 0 := by simpa using hx
      conv_lhs => rw [← List.takeWhile_append_dropWhile (fun b => b != 0) datos, h, hx0]
      simp
  rw [hr]
  generalize hS : (datos.takeWhile fun b => b != 0) = S
  have hS0 : ∀ b ∈ S, b ≠ 0 := by
    intro b hb
    rw [← hS] at hb
    simpa using List.mem_takeWhile_imp hb
  have hc : cadena (S ++ 0 :: r) 0 = S := cadena_hasta_nul _ [] S r rfl hS0
  have hsplit := List.takeWhile_append_dropWhile (fun b => b != 10) S
  rcases dropWhile_forma (fun b => b != 10) S with h | ⟨x, R, h, hx⟩
  · refine ⟨r, ?_⟩
    rw [h, List.append_nil] at hsplit
    simp [quitar_salto, strchr, hc, hsplit]
  · refine ⟨R ++ 0 :: r, ?_⟩
    have hx10 : x = 10 := by simpa using hx
    subst hx10
    have hlt : (S.takeWhile fun b => b != 10).length < S.length := by
      conv_rhs => rw [← hsplit, h]
      simp
    have hset := set_tras (S.takeWhile fun b => b != 10) 10 0 (R ++ 0 :: r)
    have hbuf : S ++ 0 :: r = (S.takeWhile fun b => b != 10) ++ 10 :: (R ++ 0 :: r) := by
      conv_lhs => rw [← hsplit, h]
      simp
    simp only [quitar_salto, strchr, hc, hlt, if_true, Nat.zero_add]
    rw [hbuf, hset]

/-- The handler, on a read that succeeds, tokenises the line of the read
and dispatches; what follows the line in the buffer is `post`. -/
theorem procesar_comando_linea (env : Entorno) (d : Disco) (bs : Bytes) :
    ∃ post, procesar_comando env d (some bs)
      = despachar env d (analizar (linea_de bs ++ 0 :: post)).1
          (analizar (linea_de bs ++ 0 :: post)).2.1 (analizar (linea_de bs ++ 0 :: post)).2.2 := by
  have hlen : (bs.take MAX_CMD_LEN).length ≤ 1024 := by
    simp [MAX_CMD_LEN, List.length_take]
  obtain ⟨post, hpost⟩ := quitar_salto_eq (bs.take MAX_CMD_LEN)
    (List.replicate (1024 - (bs.take MAX_CMD_LEN).length) 0)
  refine ⟨post, ?_⟩
  have hcopia : copiar (List.replicate (MAX_CMD_LEN + 1) 0) (bs.take MAX_CMD_LEN)
      = bs.take MAX_CMD_LEN ++ 0 :: List.replicate (1024 - (bs.take MAX_CMD_LEN).length) 0 := by
    unfold copiar
    rw [List.drop_replicate]
    have : MAX_CMD_LEN + 1 - (bs.take MAX_CMD_LEN).length
        = (1024 - (bs.take MAX_CMD_LEN).length) + 1 := by
      simp only [MAX_CMD_LEN] at hlen ⊢
      omega
    rw [this, List.replicate_succ]
  have hponer : poner (copiar (List.replicate (MAX_CMD_LEN + 1) 0) (bs.take MAX_CMD_LEN))
      (bs.take MAX_CMD_LEN).length 0
      = some (bs.take MAX_CMD_LEN ++ 0 :: List.replicate (1024 - (bs.take MAX_CMD_LEN).length) 0) := by
    rw [hcopia]
    unfold poner
    rw [set_tras, if_pos (by simp)]
  unfold procesar_comando
  simp only [read_cliente, Int.toNat_ofNat, hponer, hpost, linea_de]
  rw [if_neg (by omega)]

/-! ## Every line has one of the shapes -/

theorem primera_palabra (R : Bytes) (h0 : ∀ b ∈ R, b ≠ 0) :
    espacios R ∨ ∃ sp w, espacios sp ∧ palabra w ∧
      (R = sp ++ w ∨ ∃ r, R = sp ++ (w ++ 32 :: r)) := by
  have hsplit := List.takeWhile_append_dropWhile (fun b => b == 32) R
  have hsp : espacios (R.takeWhile fun b => b == 32) := fun b hb => by
    simpa using List.mem_takeWhile_imp hb
  rcases dropWhile_forma (fun b => b == 32) R with h | ⟨x, r, h, hx⟩
  · left
    rw [h, List.append_nil] at hsplit
    rw [← hsplit]
    exact hsp
  · right
    have hsplit2 := List.takeWhile_append_dropWhile (fun b => b != 32) (x :: r)
    have hw : palabra ((x :: r).takeWhile fun b => b != 32) := by
      constructor
      · rw [List.takeWhile_cons_of_pos (by simpa using hx)]
        simp
      · intro b hb
        have h1 := List.mem_takeWhile_imp hb
        have h2 : b ∈ R := by
          rw [← hsplit, h]
          exact List.mem_append_right _ ((List.takeWhile_sublist _).subset hb)
        exact ⟨by simpa using h1, h0 b h2⟩
    refine ⟨_, _, hsp, hw, ?_⟩
    rcases dropWhile_forma (fun b => b != 32) (x :: r) with h2 | ⟨y, r2, h2, hy⟩
    · left
      rw [h2, List.append_nil] at hsplit2
      rw [hsplit2, ← h, hsplit]
    · right
      have hy32 : y = 32 := by simpa using hy
      refine ⟨r2, ?_⟩
      rw [hy32] at h2
      rw [← h2, hsplit2, ← h, hsplit]

/-- The tokens of a line do not depend on what follows its terminator in
the buffer. -/
theorem analizar_linea (L : Bytes) (h0 : ∀ b ∈ L, b ≠ 0) :
    ∃ r, ∀ post, analizar (L ++ 0 :: post) = r := by
  rcases primera_palabra L h0 with h | ⟨sp, c, hsp, hc, h | ⟨r, h⟩⟩
  · exact ⟨(none, none, none), fun post => analizar_ninguno L post h⟩
  · refine ⟨(some c, none, none), fun post => ?_⟩
    rw [h, List.append_assoc]
    exact analizar_uno_fin sp c post hsp hc
  · have hr0 : ∀ b ∈ r, b ≠ 0 := fun b hb => h0 b (by simp [h, hb])
    rcases primera_palabra r hr0 with h1 | ⟨sp1, k, hsp1, hk, h1 | ⟨v, h1⟩⟩
    · refine ⟨(some c, none, none), fun post => ?_⟩
      have : L ++ 0 :: post = sp ++ (c ++ 32 :: (r ++ 0 :: post)) := by simp [h]
      rw [this]
      exact analizar_uno_esp sp c r post hsp hc h1
    · refine ⟨(some c, some k, none), fun post => ?_⟩
      have : L ++ 0 :: post = sp ++ (c ++ 32 :: (sp1 ++ (k ++ 0 :: post))) := by simp [h, h1]
      rw [this]
      exact analizar_dos_fin sp c sp1 k post hsp hc hsp1 hk
    · have hv0 : ∀ b ∈ v, b ≠ 0 := fun b hb => hr0 b (by simp [h1, hb])
      by_cases hv : v = []
      · refine ⟨(some c, some k, none), fun post => ?_⟩
        have : L ++ 0 :: post = sp ++ (c ++ 32 :: (sp1 ++ (k ++ 32 :: 0 :: post))) := by
          simp [h, h1, hv]
        rw [this]
        exact analizar_dos_esp sp c sp1 k post hsp hc hsp1 hk
      · refine ⟨(some c, some k, some v), fun post => ?_⟩
        have : L ++ 0 :: post = sp ++ (c ++ 32 :: (sp1 ++ (k ++ 32 :: (v ++ 0 :: post)))) := by
          simp [h, h1]
        rw [this]
        exact analizar_tres sp c sp1 k v post hsp hc hsp1 hk hv0 hv

/-- The run of the handler depends on the read only through its line. -/
theorem procesar_comando_congr (env : Entorno) (d : Disco) (bs bs2 : Bytes)
    (h : linea_de bs = linea_de bs2) :
    procesar_comando env d (some bs) = procesar_comando env d (some bs2) := by
  obtain ⟨p1, h1⟩ := procesar_comando_linea env d bs
  obtain ⟨p2, h2⟩ := procesar_comando_linea env d bs2
  obtain ⟨r, hr⟩ := analizar_linea (linea_de bs) fun b hb => (linea_de_mem hb).1
  rw [h1, h2, ← h, hr p1, hr p2]

/-! ## The handler on each shape of line -/

theorem procesar_ninguno (env : Entorno) (d : Disco) (bs : Bytes)
    (hsp : espacios (linea_de bs)) :
    procesar_comando env d (some bs) = despachar env d none none none := by
  obtain ⟨post, h⟩ := procesar_comando_linea env d bs
  rw [h, analizar_ninguno _ post hsp]

theorem procesar_uno (env : Entorno) (d : Disco) (bs sp c sp1 : Bytes)
    (hL : linea_de bs = sp ++ (c ++ sp1)) (hsp : espacios sp) (hc : palabra c)
    (hsp1 : espacios sp1) :
    procesar_comando env d (some bs) = despachar env d (some c) none none := by
  obtain ⟨post, h⟩ := procesar_comando_linea env d bs
  rw [h, hL]
  cases sp1 with
  | nil =>
    have : sp ++ (c ++ []) ++ 0 :: post = sp ++ (c ++ 0 :: post) := by simp
    rw [this, analizar_uno_fin sp c post hsp hc]
  | cons x sp1 =>
    have hx : x = 32 := hsp1 x (by simp)
    subst hx
    have : sp ++ (c ++ 32 :: sp1) ++ 0 :: post = sp ++ (c ++ 32 :: (sp1 ++ 0 :: post)) := by simp
    rw [this, analizar_uno_esp sp c sp1 post hsp hc fun b hb => hsp1 b (by simp [hb])]

theorem procesar_dos (env : Entorno) (d : Disco) (bs sp c sp1 k : Bytes)
    (hL : linea_de bs = sp ++ (c ++ 32 :: (sp1 ++ k)) ∨
      linea_de bs = sp ++ (c ++ 32 :: (sp1 ++ (k ++ [32]))))
    (hsp : espacios sp) (hc : palabra c) (hsp1 : espacios sp1) (hk : palabra k) :
    procesar_comando env d (some bs) = despachar env d (some c) (some k) none := by
  obtain ⟨post, h⟩ := procesar_comando_linea env d bs
  rw [h]
  rcases hL with hL | hL
  · have : linea_de bs ++ 0 :: post = sp ++ (c ++ 32 :: (sp1 ++ (k ++ 0 :: post))) := by
      simp [hL]
    rw [this, analizar_dos_fin sp c sp1 k post hsp hc hsp1 hk]
  · have : linea_de bs ++ 0 :: post = sp ++ (c ++ 32 :: (sp1 ++ (k ++ 32 :: 0 :: post))) := by
      simp [hL]
    rw [this, analizar_dos_esp sp c sp1 k post hsp hc hsp1 hk]

theorem procesar_tres (env : Entorno) (d : Disco) (bs sp c sp1 k v : Bytes)
    (hL : linea_de bs = sp ++ (c ++ 32 :: (sp1 ++ (k ++ 32 :: v))))
    (hsp : espacios sp) (hc : palabra c) (hsp1 : espacios sp1) (hk : palabra k) (hv : v ≠ []) :
    procesar_comando env d (some bs) = despachar env d (some c) (some k) (some v) := by
  obtain ⟨post, h⟩ := procesar_comando_linea env d bs
  have hv0 : ∀ b ∈ v, b ≠ 0 := fun b hb =>
    (@linea_de_mem bs b (by rw [hL]; simp [hb])).1
  have : linea_de bs ++ 0 :: post = sp ++ (c ++ 32 :: (sp1 ++ (k ++ 32 :: (v ++ 0 :: post)))) := by
    simp [hL]
  rw [h, this, analizar_tres sp c sp1 k v post hsp hc hsp1 hk hv0 hv]


/-! ## The line of a request -/

/-- A read that starts with `X` and a newline: the line is `X`, cut at the
size of the read. -/
theorem linea_de_salto (X rest : Bytes) (hX : ∀ b ∈ X, b ≠ 0 ∧ b ≠ 10) :
    linea_de (X ++ 10 :: rest) = X.take MAX_CMD_LEN := by
  have hT : ∀ b ∈ X.take MAX_CMD_LEN, b ≠ 0 ∧ b ≠ 10 := fun b hb =>
    hX b (List.mem_of_mem_take hb)
  unfold linea_de
  rw [List.take_append_eq_append_take]
  rcases Nat.lt_or_ge X.length MAX_CMD_LEN with hlt | hge
  · obtain ⟨m, hm⟩ : ∃ m, MAX_CMD_LEN - X.length = m + 1 := ⟨MAX_CMD_LEN - X.length - 1, by omega⟩
    rw [hm, List.take_succ_cons,
      List.takeWhile_append_of_pos (by simpa using fun b hb => (hT b hb).1),
      List.takeWhile_cons_of_pos (by decide)]
    exact takeWhile_hasta _ _ 10 _ (by simpa using fun b hb => (hT b hb).2) (by decide)
  · rw [Nat.sub_eq_zero_of_le hge, List.take_zero, List.append_nil,
      (List.takeWhile_eq_self_iff (p := fun b => b != 0)).2
        (by simpa using fun b hb => (hT b hb).1),
      (List.takeWhile_eq_self_iff (p := fun b => b != 10)).2
        (by simpa using fun b hb => (hT b hb).2)]

/-- A request that fits the read: the line is the request without its newline. -/
theorem linea_de_pedido (X rest : Bytes) (hX : ∀ b ∈ X, b ≠ 0 ∧ b ≠ 10)
    (hlen : X.length ≤ MAX_CMD_LEN) : linea_de (X ++ 10 :: rest) = X := by
  rw [linea_de_salto X rest hX, List.take_of_length_le hlen]

theorem utf8_salto : utf8 "\n" = [10] := by decide

theorem utf8_SET : utf8 "SET" = [83, 69, 84] := by decide

theorem utf8_GET : utf8 "GET" = [71, 69, 84] := by decide

theorem utf8_DEL : utf8 "DEL" = [68, 69, 76] := by decide

theorem utf8_SET_esp : utf8 "SET " = [83, 69, 84, 32] := by decide

theorem utf8_GET_esp : utf8 "GET " = [71, 69, 84, 32] := by decide

theorem utf8_DEL_esp : utf8 "DEL " = [68, 69, 76, 32] := by decide

theorem espacios_nil : espacios [] := fun _ h => absurd h (List.not_mem_nil _)

theorem clave_palabra {k : Bytes} (hk : clave_valida k) : palabra k :=
  ⟨hk.1, fun b hb => ⟨(hk.2 b hb).1, (hk.2 b hb).2.2⟩⟩

/-- A request made of a command word and a key, one space between them. -/
theorem procesar_orden_clave (env : Entorno) (d : Disco) (c k rest : Bytes)
    (hc : palabra c) (hc10 : ∀ b ∈ c, b ≠ 10) (hk : clave_valida k)
    (hlen : (c ++ 32 :: k).length ≤ MAX_CMD_LEN) :
    procesar_comando env d (some (c ++ 32 :: k ++ 10 :: rest))
      = despachar env d (some c) (some k) none := by
  refine procesar_dos env d _ [] c [] k (Or.inl ?_) espacios_nil hc espacios_nil (clave_palabra hk)
  rw [linea_de_pedido (c ++ 32 :: k) rest ?_ hlen]
  · simp
  · intro b hb
    rcases List.mem_append.1 hb with h | h
    · exact ⟨(hc.2 b h).2, hc10 b h⟩
    · rcases List.mem_cons.1 h with h | h
      · subst h; decide
      · exact ⟨(hk.2 b h).2.2, (hk.2 b h).2.1⟩

/-- A request made of a command word, a key and the rest of the line, one
space after the command and one after the key: the value is the rest of the
line, NULL when that is empty. -/
theorem procesar_orden_clave_valor (env : Entorno) (d : Disco) (c k v rest : Bytes)
    (hc : palabra c) (hc10 : ∀ b ∈ c, b ≠ 10) (hk : clave_valida k) (hv : valor_valido v)
    (hlen : (c ++ 32 :: k ++ 32 :: v).length ≤ MAX_CMD_LEN) :
    procesar_comando env d (some (c ++ 32 :: k ++ 32 :: v ++ 10 :: rest))
      = despachar env d (some c) (some k) (if v = [] then none else some v) := by
  have hL : linea_de (c ++ 32 :: k ++ 32 :: v ++ 10 :: rest) = c ++ 32 :: k ++ 32 :: v := by
    refine linea_de_pedido (c ++ 32 :: k ++ 32 :: v) rest ?_ hlen
    intro b hb
    simp only [List.append_assoc, List.cons_append, List.mem_append, List.mem_cons] at hb
    rcases hb with h | h | h | h | h
    · exact ⟨(hc.2 b h).2, hc10 b h⟩
    · subst h; decide
    · exact ⟨(hk.2 b h).2.2, (hk.2 b h).2.1⟩
    · subst h; decide
    · exact ⟨(hv b h).2, (hv b h).1⟩
  by_cases hve : v = []
  · subst hve
    rw [if_pos rfl]
    exact procesar_dos env d _ [] c [] k (Or.inr (by rw [hL]; simp)) espacios_nil hc espacios_nil
      (clave_palabra hk)
  · rw [if_neg hve]
    exact procesar_tres env d _ [] c [] k v (by rw [hL]; simp) espacios_nil hc espacios_nil
      (clave_palabra hk) hve

/-! ## The directory -/

theorem buscar_guardar (d : Disco) (k v : Bytes) : buscar (guardar d k v) k = some v := by
  simp [buscar, guardar]

theorem buscar_quitar (d : Disco) (k : Bytes) : buscar (quitar d k) k = none := by
  simp [buscar, quitar]

theorem quitar_ausente (d : Disco) (k : Bytes) (h : buscar d k = none) : quitar d k = d := by
  unfold quitar
  rw [List.filter_eq_self]
  intro e he
  have := h
  simp only [buscar, Option.map_eq_none', List.find?_eq_none] at this
  simpa using this e he

theorem quitar_quitar (d : Disco) (k : Bytes) : quitar (quitar d k) k = quitar d k :=
  quitar_ausente _ k (buscar_quitar d k)

theorem guardar_guardar (d : Disco) (k v w : Bytes) :
    guardar (guardar d k v) k w = guardar d k w := by
  simp [guardar, quitar, List.filter_filter]


/-! ## The dispatch, command by command -/

theorem takeWhile_tras_nul (l post : Bytes) :
    (l ++ 0 :: post).takeWhile (fun b => b != 0) = l.takeWhile fun b => b != 0 := by
  induction l with
  | nil => simp
  | cons a l ih =>
    by_cases h : a = 0
    · simp [h]
    · simp [List.takeWhile_cons, h, ih]

theorem despachar_set_valor (env : Entorno) (d : Disco) (k v : Bytes)
    (h1 : env.falla_open_escritura = false) (h2 : env.falla_write = false) :
    despachar env d (some (utf8 "SET")) (some k) (some v)
      = ⟨guardar d k v, [RESPONSE_OK], Final.retorna⟩ := by
  simp [despachar, open_escritura, write_archivo, h1, h2, guardar_guardar]

theorem despachar_set_nulo (env : Entorno) (d : Disco) (k : Bytes)
    (h1 : env.falla_open_escritura = false) :
    despachar env d (some (utf8 "SET")) (some k) none
      = ⟨guardar d k [], [RESPONSE_OK], Final.retorna⟩ := by
  simp [despachar, open_escritura, h1]

theorem despachar_get_ausente (env : Entorno) (d : Disco) (k : Bytes) (valor : Option Bytes)
    (h : buscar d k = none) :
    despachar env d (some (utf8 "GET")) (some k) valor
      = ⟨d, [RESPONSE_NOTFOUND], Final.retorna⟩ := by
  have hne : utf8 "GET" ≠ utf8 "SET" := by decide
  cases hf : env.falla_open_lectura <;> simp [despachar, open_lectura, h, hf, hne]

theorem despachar_get_presente (env : Entorno) (d : Disco) (k s : Bytes)
    (valor : Option Bytes) (hb : buscar d k = some s)
    (h3 : env.falla_open_lectura = false) (h4 : env.falla_read = false) :
    despachar env d (some (utf8 "GET")) (some k) valor
      = ⟨d, [utf8 "OK\n" ++ ((s.take 4095).takeWhile fun b => b != 0) ++ utf8 "\n"],
          Final.retorna⟩ := by
  have hne : utf8 "GET" ≠ utf8 "SET" := by decide
  have hlen : (s.take 4095).length ≤ 4095 := by simp [List.length_take]
  have hcopia : copiar (List.replicate 4096 0) (s.take 4095)
      = s.take 4095 ++ 0 :: List.replicate (4095 - (s.take 4095).length) 0 := by
    unfold copiar
    rw [List.drop_replicate]
    have : 4096 - (s.take 4095).length = (4095 - (s.take 4095).length) + 1 := by omega
    rw [this, List.replicate_succ]
  have hponer : poner (copiar (List.replicate 4096 0) (s.take 4095)) (s.take 4095).length 0
      = some (s.take 4095 ++ 0 :: List.replicate (4095 - (s.take 4095).length) 0) := by
    rw [hcopia]
    unfold poner
    rw [set_tras, if_pos (by simp)]
  have hcad : cadena (s.take 4095 ++ 0 :: List.replicate (4095 - (s.take 4095).length) 0) 0
      = (s.take 4095).takeWhile fun b => b != 0 := by
    have := cadena_tras []
      (s.take 4095 ++ 0 :: List.replicate (4095 - (s.take 4095).length) 0)
    rw [List.nil_append, List.length_nil] at this
    rw [this, takeWhile_tras_nul]
  simp only [despachar, hne, if_false, if_true, open_lectura, h3, hb, read_archivo, h4,
    Option.getD_some, Bool.false_eq_true, Nat.reduceSub, Int.toNat_ofNat, hponer, hcad]
  rw [if_neg (by omega)]

theorem despachar_del (env : Entorno) (d : Disco) (k : Bytes) (valor : Option Bytes) :
    despachar env d (some (utf8 "DEL")) (some k) valor
      = ⟨unlink env d k, [RESPONSE_OK], Final.retorna⟩ := by
  have h1 : utf8 "DEL" ≠ utf8 "SET" := by decide
  have h2 : utf8 "DEL" ≠ utf8 "GET" := by decide
  simp [despachar, h1, h2]

/-! ## The handler on the requests of the protocol -/

theorem palabra_SET : palabra (utf8 "SET") ∧ ∀ b ∈ utf8 "SET", b ≠ 10 := by decide

theorem palabra_GET : palabra (utf8 "GET") ∧ ∀ b ∈ utf8 "GET", b ≠ 10 := by decide

theorem palabra_DEL : palabra (utf8 "DEL") ∧ ∀ b ∈ utf8 "DEL", b ≠ 10 := by decide

theorem pedido_set_length (k v : Bytes) :
    (pedido_set k v).length = k.length + v.length + 6 := by
  simp [pedido_set, utf8_SET_esp, utf8_espacio, utf8_salto]
  omega

theorem pedido_get_length (k : Bytes) : (pedido_get k).length = k.length + 5 := by
  simp [pedido_get, utf8_GET_esp, utf8_salto]

theorem pedido_del_length (k : Bytes) : (pedido_del k).length = k.length + 5 := by
  simp [pedido_del, utf8_DEL_esp, utf8_salto]

theorem pedido_set_vacio_length (k : Bytes) : (pedido_set_vacio k).length = k.length + 5 := by
  simp [pedido_set_vacio, utf8_SET_esp, utf8_salto]

/-- The request `SET k v` when open and write succeed. -/
theorem procesar_set (env : Entorno) (d : Disco) (k v : Bytes) (hk : clave_valida k)
    (hv : valor_valido v) (hlen : (pedido_set k v).length ≤ MAX_CMD_LEN)
    (h1 : env.falla_open_escritura = false) (h2 : env.falla_write = false) :
    procesar_comando env d (some (pedido_set k v))
      = ⟨guardar d k v, [RESPONSE_OK], Final.retorna⟩ := by
  have hform : pedido_set k v = utf8 "SET" ++ 32 :: k ++ 32 :: v ++ 10 :: [] := by
    simp [pedido_set, utf8_SET_esp, utf8_SET, utf8_espacio, utf8_salto]
  rw [pedido_set_length] at hlen
  rw [hform, procesar_orden_clave_valor env d _ k v [] palabra_SET.1 palabra_SET.2 hk hv
    (by simp [utf8_SET]; omega)]
  by_cases hve : v = []
  · subst hve
    rw [if_pos rfl, despachar_set_nulo env d k h1]
  · rw [if_neg hve, despachar_set_valor env d k v h1 h2]

/-- The request `SET k` when open succeeds. -/
theorem procesar_set_vacio (env : Entorno) (d : Disco) (k : Bytes) (hk : clave_valida k)
    (hlen : (pedido_set_vacio k).length ≤ MAX_CMD_LEN)
    (h1 : env.falla_open_escritura = false) :
    procesar_comando env d (some (pedido_set_vacio k))
      = ⟨guardar d k [], [RESPONSE_OK], Final.retorna⟩ := by
  have hform : pedido_set_vacio k = utf8 "SET" ++ 32 :: k ++ 10 :: [] := by
    simp [pedido_set_vacio, utf8_SET_esp, utf8_SET, utf8_salto]
  rw [pedido_set_vacio_length] at hlen
  rw [hform, procesar_orden_clave env d _ k [] palabra_SET.1 palabra_SET.2 hk
    (by simp [utf8_SET]; omega), despachar_set_nulo env d k h1]

/-- The request `GET k` is dispatched as GET on `k`. -/
theorem procesar_get (env : Entorno) (d : Disco) (k : Bytes) (hk : clave_valida k)
    (hlen : (pedido_get k).length ≤ MAX_CMD_LEN) :
    procesar_comando env d (some (pedido_get k))
      = despachar env d (some (utf8 "GET")) (some k) none := by
  have hform : pedido_get k = utf8 "GET" ++ 32 :: k ++ 10 :: [] := by
    simp [pedido_get, utf8_GET_esp, utf8_GET, utf8_salto]
  rw [pedido_get_length] at hlen
  rw [hform, procesar_orden_clave env d _ k [] palabra_GET.1 palabra_GET.2 hk
    (by simp [utf8_GET]; omega)]

/-- The request `DEL k`. -/
theorem procesar_del (env : Entorno) (d : Disco) (k : Bytes) (hk : clave_valida k)
    (hlen : (pedido_del k).length ≤ MAX_CMD_LEN) :
    procesar_comando env d (some (pedido_del k))
      = ⟨unlink env d k, [RESPONSE_OK], Final.retorna⟩ := by
  have hform : pedido_del k = utf8 "DEL" ++ 32 :: k ++ 10 :: [] := by
    simp [pedido_del, utf8_DEL_esp, utf8_DEL, utf8_salto]
  rw [pedido_del_length] at hlen
  rw [hform, procesar_orden_clave env d _ k [] palabra_DEL.1 palabra_DEL.2 hk
    (by simp [utf8_DEL]; omega), despachar_del]

/-- The request `GET k` on a stored value without NUL, when open and read
succeed: the value up to 4095 bytes. -/
theorem procesar_get_presente (env : Entorno) (d : Disco) (k s : Bytes)
    (hk : clave_valida k) (hlen : (pedido_get k).length ≤ MAX_CMD_LEN)
    (hb : buscar d k = some s) (hs : ∀ b ∈ s, b ≠ 0)
    (h3 : env.falla_open_lectura = false) (h4 : env.falla_read = false) :
    procesar_comando env d (some (pedido_get k))
      = ⟨d, [utf8 "OK\n" ++ s.take 4095 ++ utf8 "\n"], Final.retorna⟩ := by
  rw [procesar_get env d k hk hlen, despachar_get_presente env d k s none hb h3 h4,
    List.takeWhile_eq_self_iff.2 fun b hb => by simpa using hs b (List.mem_of_mem_take hb)]


/-! ## Claims -/

/-- C1: round trip of SET then GET.  For every directory, every key `k`
(non-empty, without space, newline or NUL) and every value `v` (without
newline or NUL, spaces allowed; the empty value included) such that the
request `SET k v` with its newline fits in 1024 bytes, and with the system
calls of both runs succeeding, the handler answers exactly `OK\n` to
`SET k v`, and on the resulting directory answers to `GET k` exactly `OK\n`
followed by `v` and a newline. -/
theorem C1_set_get_round_trip (env1 env2 : Entorno) (d : Disco) (k v : Bytes)
    (hk : clave_valida k) (hv : valor_valido v) (hlen : (pedido_set k v).length ≤ 1024)
    (h1 : env1.falla_open_escritura = false) (h2 : env1.falla_write = false)
    (h3 : env2.falla_open_lectura = false) (h4 : env2.falla_read = false) :
    (procesar_comando env1 d (some (pedido_set k v))).enviado = [utf8 "OK\n"] ∧
    (procesar_comando env2 (procesar_comando env1 d (some (pedido_set k v))).disco
        (some (pedido_get k))).enviado = [utf8 "OK\n" ++ v ++ utf8 "\n"] := by
  have hg : (pedido_get k).length ≤ MAX_CMD_LEN := by
    rw [pedido_set_length] at hlen
    rw [pedido_get_length, MAX_CMD_LEN]
    omega
  have hvl : v.length ≤ 4095 := by
    rw [pedido_set_length] at hlen
    omega
  rw [procesar_set env1 d k v hk hv hlen h1 h2]
  refine ⟨rfl, ?_⟩
  rw [procesar_get_presente env2 _ k v hk hg (buscar_guardar d k v) (fun b hb => (hv b hb).2)
    h3 h4, List.take_of_length_le hvl]

theorem C1_set_get_round_trip_witness :
    clave_valida (utf8 "clave") ∧ valor_valido (utf8 "un valor con espacios") ∧
    (procesar_comando Entorno.sano [] (some (utf8 "SET clave un valor con espacios\n"))).enviado
      = [utf8 "OK\n"] ∧
    (procesar_comando Entorno.sano
        (procesar_comando Entorno.sano [] (some (utf8 "SET clave un valor con espacios\n"))).disco
        (some (utf8 "GET clave\n"))).enviado = [utf8 "OK\nun valor con espacios\n"] :=
  ⟨by decide, by decide,
    C1_set_get_round_trip Entorno.sano Entorno.sano [] (utf8 "clave")
      (utf8 "un valor con espacios") (by decide) (by decide) (by decide) rfl rfl rfl rfl⟩

/-- C2: last write wins.  For every directory, key `k` and values `v1`, `v2`
(of any lengths), after `SET k v1` and then `SET k v2` (the second one
succeeding), the record of `k` holds exactly `v2` and `GET k` answers `OK\n`
followed by `v2` and a newline. -/
theorem C2_last_write_wins (env1 env2 env3 : Entorno) (d : Disco) (k v1 v2 : Bytes)
    (hk : clave_valida k) (hv2 : valor_valido v2) (hlen2 : (pedido_set k v2).length ≤ 1024)
    (h1 : env2.falla_open_escritura = false) (h2 : env2.falla_write = false)
    (h3 : env3.falla_open_lectura = false) (h4 : env3.falla_read = false) :
    buscar (procesar_comando env2 (procesar_comando env1 d (some (pedido_set k v1))).disco
        (some (pedido_set k v2))).disco k = some v2 ∧
    (procesar_comando env3
        (procesar_comando env2 (procesar_comando env1 d (some (pedido_set k v1))).disco
          (some (pedido_set k v2))).disco
        (some (pedido_get k))).enviado = [utf8 "OK\n" ++ v2 ++ utf8 "\n"] := by
  have hg : (pedido_get k).length ≤ MAX_CMD_LEN := by
    rw [pedido_set_length] at hlen2
    rw [pedido_get_length, MAX_CMD_LEN]
    omega
  have hvl : v2.length ≤ 4095 := by
    rw [pedido_set_length] at hlen2
    omega
  generalize (procesar_comando env1 d (some (pedido_set k v1))).disco = d1
  rw [procesar_set env2 d1 k v2 hk hv2 hlen2 h1 h2]
  refine ⟨buscar_guardar d1 k v2, ?_⟩
  rw [procesar_get_presente env3 _ k v2 hk hg (buscar_guardar d1 k v2)
    (fun b hb => (hv2 b hb).2) h3 h4, List.take_of_length_le hvl]

theorem C2_last_write_wins_witness :
    clave_valida (utf8 "k") ∧ valor_valido (utf8 "xy") ∧
    buscar (procesar_comando Entorno.sano
        (procesar_comando Entorno.sano [] (some (pedido_set (utf8 "k") (utf8 "primero largo")))).disco
        (some (pedido_set (utf8 "k") (utf8 "xy")))).disco (utf8 "k") = some (utf8 "xy") ∧
    (procesar_comando Entorno.sano
        (procesar_comando Entorno.sano
          (procesar_comando Entorno.sano [] (some (pedido_set (utf8 "k") (utf8 "primero largo")))).disco
          (some (pedido_set (utf8 "k") (utf8 "xy")))).disco
        (some (pedido_get (utf8 "k")))).enviado = [utf8 "OK\n" ++ utf8 "xy" ++ utf8 "\n"] :=
  ⟨by decide, by decide,
    C2_last_write_wins Entorno.sano Entorno.sano Entorno.sano [] (utf8 "k")
      (utf8 "primero largo") (utf8 "xy") (by decide) (by decide) (by decide) rfl rfl rfl rfl⟩

/-- C3: for every directory and every key `k` that names no file of it, the
handler answers to `GET k` exactly `NOTFOUND\n`, in one write, leaves the
directory unchanged and returns. -/
theorem C3_get_absent (env : Entorno) (d : Disco) (k : Bytes) (hk : clave_valida k)
    (hlen : (pedido_get k).length ≤ 1024) (h : buscar d k = none) :
    procesar_comando env d (some (pedido_get k)) = ⟨d, [utf8 "NOTFOUND\n"], Final.retorna⟩ := by
  rw [procesar_get env d k hk hlen, despachar_get_ausente env d k none h]
  rfl

theorem C3_get_absent_witness :
    clave_valida (utf8 "b") ∧ buscar [(utf8 "a", utf8 "1")] (utf8 "b") = none ∧
    procesar_comando Entorno.sano [(utf8 "a", utf8 "1")] (some (pedido_get (utf8 "b")))
      = ⟨[(utf8 "a", utf8 "1")], [utf8 "NOTFOUND\n"], Final.retorna⟩ :=
  ⟨by decide, by decide,
    C3_get_absent Entorno.sano [(utf8 "a", utf8 "1")] (utf8 "b") (by decide) (by decide)
      (by decide)⟩


/-- C4: DEL always answers OK and is idempotent.  For every directory and
every key `k`, present or not, and whatever the outcome of `unlink`, the
handler answers to `DEL k` exactly `OK\n`; if `k` names no file the directory
is unchanged; and a second `DEL k` leaves the directory as the first one left
it (the second `unlink` not succeeding where the first one failed). -/
theorem C4_del_ok_idempotent (env1 env2 : Entorno) (d : Disco) (k : Bytes)
    (hk : clave_valida k) (hlen : (pedido_del k).length ≤ 1024)
    (henv : env1.falla_unlink = true → env2.falla_unlink = true) :
    (procesar_comando env1 d (some (pedido_del k))).enviado = [utf8 "OK\n"] ∧
    (buscar d k = none → (procesar_comando env1 d (some (pedido_del k))).disco = d) ∧
    (procesar_comando env2 (procesar_comando env1 d (some (pedido_del k))).disco
        (some (pedido_del k))).disco
      = (procesar_comando env1 d (some (pedido_del k))).disco := by
  rw [procesar_del env1 d k hk hlen, procesar_del env2 _ k hk hlen]
  refine ⟨rfl, ?_, ?_⟩
  · intro h
    show unlink env1 d k = d
    unfold unlink
    split
    · rfl
    · exact quitar_ausente d k h
  · show unlink env2 (unlink env1 d k) k = unlink env1 d k
    cases h1 : env1.falla_unlink
    · cases h2 : env2.falla_unlink <;> simp [unlink, h1, h2, quitar_quitar]
    · simp [unlink, h1, henv h1]

theorem C4_del_ok_idempotent_witness :
    clave_valida (utf8 "a") ∧
    (procesar_comando Entorno.sano [(utf8 "a", utf8 "1")] (some (pedido_del (utf8 "a")))).enviado
      = [utf8 "OK\n"] ∧
    (buscar [(utf8 "a", utf8 "1")] (utf8 "a") = none →
      (procesar_comando Entorno.sano [(utf8 "a", utf8 "1")] (some (pedido_del (utf8 "a")))).disco
        = [(utf8 "a", utf8 "1")]) ∧
    (procesar_comando Entorno.sano
        (procesar_comando Entorno.sano [(utf8 "a", utf8 "1")]
          (some (pedido_del (utf8 "a")))).disco
        (some (pedido_del (utf8 "a")))).disco
      = (procesar_comando Entorno.sano [(utf8 "a", utf8 "1")]
          (some (pedido_del (utf8 "a")))).disco :=
  ⟨by decide,
    C4_del_ok_idempotent Entorno.sano Entorno.sano [(utf8 "a", utf8 "1")] (utf8 "a") (by decide)
      (by decide) (by decide)⟩

/-- C5: DEL removes the record.  For every directory, key `k` and value `v`,
after a successful `SET k v` the record of `k` holds `v`, and after a `DEL k`
whose `unlink` succeeds the handler answers to `GET k` exactly
`NOTFOUND\n`. -/
theorem C5_del_removes (env1 env2 env3 : Entorno) (d : Disco) (k v : Bytes)
    (hk : clave_valida k) (hv : valor_valido v) (hlen : (pedido_set k v).length ≤ 1024)
    (h1 : env1.falla_open_escritura = false) (h2 : env1.falla_write = false)
    (h3 : env2.falla_unlink = false) :
    buscar (procesar_comando env1 d (some (pedido_set k v))).disco k = some v ∧
    (procesar_comando env3
        (procesar_comando env2 (procesar_comando env1 d (some (pedido_set k v))).disco
          (some (pedido_del k))).disco
        (some (pedido_get k))).enviado = [utf8 "NOTFOUND\n"] := by
  have hg : (pedido_get k).length ≤ MAX_CMD_LEN := by
    rw [pedido_set_length] at hlen
    rw [pedido_get_length, MAX_CMD_LEN]
    omega
  have hdl : (pedido_del k).length ≤ MAX_CMD_LEN := by
    rw [pedido_del_length, ← pedido_get_length]
    exact hg
  rw [procesar_set env1 d k v hk hv hlen h1 h2, procesar_del env2 _ k hk hdl]
  refine ⟨buscar_guardar d k v, ?_⟩
  have hq : buscar (unlink env2 (guardar d k v) k) k = none := by
    simp only [unlink, h3, Bool.false_eq_true, if_false]
    exact buscar_quitar _ k
  rw [procesar_get env3 _ k hk hg, despachar_get_ausente env3 _ k none hq]
  rfl

theorem C5_del_removes_witness :
    clave_valida (utf8 "a") ∧ valor_valido (utf8 "1 2") ∧
    buscar (procesar_comando Entorno.sano [] (some (pedido_set (utf8 "a") (utf8 "1 2")))).disco
      (utf8 "a") = some (utf8 "1 2") ∧
    (procesar_comando Entorno.sano
        (procesar_comando Entorno.sano
          (procesar_comando Entorno.sano [] (some (pedido_set (utf8 "a") (utf8 "1 2")))).disco
          (some (pedido_del (utf8 "a")))).disco
        (some (pedido_get (utf8 "a")))).enviado = [utf8 "NOTFOUND\n"] :=
  ⟨by decide, by decide,
    C5_del_removes Entorno.sano Entorno.sano Entorno.sano [] (utf8 "a") (utf8 "1 2") (by decide)
      (by decide) (by decide) rfl rfl rfl⟩


/-! ## Lines without a key, lines with an unknown command -/

theorem espacios_take {sp : Bytes} (h : espacios sp) (n : Nat) : espacios (sp.take n) :=
  fun b hb => h b (List.mem_of_mem_take hb)

theorem espacios_append {sp sp1 : Bytes} (h : espacios sp) (h1 : espacios sp1) :
    espacios (sp ++ sp1) := fun b hb => by
  rcases List.mem_append.1 hb with hb | hb
  · exact h b hb
  · exact h1 b hb

theorem espacios_sin_nul {sp : Bytes} (h : espacios sp) : ∀ b ∈ sp, b ≠ 0 ∧ b ≠ 10 :=
  fun b hb => by
    have := h b hb
    subst this
    decide

theorem despachar_sin_clave (env : Entorno) (d : Disco) (comando valor : Option Bytes) :
    despachar env d comando none valor = ⟨d, [ERROR_INVALIDO], Final.retorna⟩ := by
  cases comando <;> rfl

/-- A line with at most one word (whatever its length): no key, so the
handler answers that the command is invalid. -/
theorem procesar_sin_clave (env : Entorno) (d : Disco) (sp c sp1 rest : Bytes)
    (hsp : espacios sp) (hc : ∀ b ∈ c, b ≠ 32 ∧ b ≠ 10 ∧ b ≠ 0) (hsp1 : espacios sp1) :
    procesar_comando env d (some (sp ++ c ++ sp1 ++ 10 :: rest))
      = ⟨d, [ERROR_INVALIDO], Final.retorna⟩ := by
  have hX : ∀ b ∈ sp ++ c ++ sp1, b ≠ 0 ∧ b ≠ 10 := by
    intro b hb
    simp only [List.mem_append] at hb
    rcases hb with (h | h) | h
    · exact espacios_sin_nul hsp b h
    · exact ⟨(hc b h).2.2, (hc b h).2.1⟩
    · exact espacios_sin_nul hsp1 b h
  have hL : linea_de (sp ++ c ++ sp1 ++ 10 :: rest)
      = sp.take MAX_CMD_LEN ++ (c.take (MAX_CMD_LEN - sp.length)
          ++ sp1.take (MAX_CMD_LEN - sp.length - c.length)) := by
    rw [linea_de_salto _ rest hX, List.append_assoc, List.take_append_eq_append_take,
      List.take_append_eq_append_take]
  by_cases hce : c.take (MAX_CMD_LEN - sp.length) = []
  · rw [procesar_ninguno env d _ (by
      rw [hL, hce, List.nil_append]
      exact espacios_append (espacios_take hsp _) (espacios_take hsp1 _))]
    rfl
  · rw [procesar_uno env d _ _ _ _ hL (espacios_take hsp _)
      ⟨hce, fun b hb => ⟨(hc b (List.mem_of_mem_take hb)).1, (hc b (List.mem_of_mem_take hb)).2.2⟩⟩
      (espacios_take hsp1 _)]
    rfl

theorem despachar_desconocido (env : Entorno) (d : Disco) (c k : Bytes) (valor : Option Bytes)
    (h1 : c ≠ utf8 "SET") (h2 : c ≠ utf8 "GET") (h3 : c ≠ utf8 "DEL") :
    despachar env d (some c) (some k) valor = ⟨d, [ERROR_DESCONOCIDO], Final.retorna⟩ := by
  simp [despachar, h1, h2, h3]

/-- A line with a command word and a key (and maybe more after one space)
that fits the read: the dispatch receives the command and the key. -/
theorem procesar_con_clave (env : Entorno) (d : Disco) (sp c sp1 k resto rest : Bytes)
    (hsp : espacios sp) (hc : palabra c) (hc10 : ∀ b ∈ c, b ≠ 10) (hsp1 : espacios sp1)
    (hk : clave_valida k) (hresto : resto = [] ∨ ∃ v, valor_valido v ∧ resto = 32 :: v)
    (hlen : (sp ++ c ++ 32 :: sp1 ++ k ++ resto).length ≤ MAX_CMD_LEN) :
    ∃ valor, procesar_comando env d (some (sp ++ c ++ 32 :: sp1 ++ k ++ resto ++ 10 :: rest))
      = despachar env d (some c) (some k) valor := by
  have hX : ∀ b ∈ sp ++ c ++ 32 :: sp1 ++ k ++ resto, b ≠ 0 ∧ b ≠ 10 := by
    intro b hb
    simp only [List.mem_append, List.mem_cons, List.append_assoc, List.cons_append] at hb
    rcases hb with h | h | h | h | h | h
    · exact espacios_sin_nul hsp b h
    · exact ⟨(hc.2 b h).2, hc10 b h⟩
    · subst h; decide
    · exact espacios_sin_nul hsp1 b h
    · exact ⟨(hk.2 b h).2.2, (hk.2 b h).2.1⟩
    · rcases hresto with hr | ⟨v, hv, hr⟩
      · rw [hr] at h
        exact absurd h (List.not_mem_nil _)
      · rw [hr] at h
        rcases List.mem_cons.1 h with h | h
        · subst h; decide
        · exact ⟨(hv b h).2, (hv b h).1⟩
  have hL := linea_de_pedido _ rest hX hlen
  rcases hresto with hr | ⟨v, hv, hr⟩
  · subst hr
    exact ⟨none, procesar_dos env d _ sp c sp1 k (Or.inl (by rw [hL]; simp)) hsp hc hsp1
      (clave_palabra hk)⟩
  · subst hr
    by_cases hve : v = []
    · subst hve
      exact ⟨none, procesar_dos env d _ sp c sp1 k (Or.inr (by rw [hL]; simp)) hsp hc hsp1
        (clave_palabra hk)⟩
    · exact ⟨some v, procesar_tres env d _ sp c sp1 k v (by rw [hL]; simp) hsp hc hsp1
        (clave_palabra hk) hve⟩

/-! ## Claims C6 and C7 -/

/-- C6, as the code has it: for every directory and every input line without
a key token (spaces, at most one word, spaces, then the newline; the empty
line and `GET\n` included), the handler answers exactly
`ERROR comando inválido\n`, in one write, leaves the directory unchanged and
returns. -/
theorem C6_malformed_command (env : Entorno) (d : Disco) (sp c sp1 : Bytes)
    (hsp : espacios sp) (hc : ∀ b ∈ c, b ≠ 32 ∧ b ≠ 10 ∧ b ≠ 0) (hsp1 : espacios sp1) :
    procesar_comando env d (some (sp ++ c ++ sp1 ++ utf8 "\n"))
      = ⟨d, [utf8 "ERROR comando inválido\n"], Final.retorna⟩ := by
  rw [utf8_salto]
  exact procesar_sin_clave env d sp c sp1 [] hsp hc hsp1

theorem C6_malformed_command_witness :
    espacios [] ∧ (∀ b ∈ utf8 "GET", b ≠ 32 ∧ b ≠ 10 ∧ b ≠ 0) ∧
    procesar_comando Entorno.sano [(utf8 "a", utf8 "1")] (some ([] ++ utf8 "GET" ++ [] ++ utf8 "\n"))
      = ⟨[(utf8 "a", utf8 "1")], [utf8 "ERROR comando inválido\n"], Final.retorna⟩ :=
  ⟨by decide, by decide,
    C6_malformed_command Entorno.sano [(utf8 "a", utf8 "1")] [] (utf8 "GET") [] (by decide)
      (by decide) (by decide)⟩

/-- C6, as stated, fails: on the line `GET\n` (a command token and no key)
the handler writes `ERROR comando inválido\n`, which is not
`ERROR invalid command\n`. -/
theorem C6_counterexample :
    (procesar_comando Entorno.sano [] (some (utf8 "GET\n"))).enviado
      = [utf8 "ERROR comando inválido\n"] ∧
    (procesar_comando Entorno.sano [] (some (utf8 "GET\n"))).enviado
      ≠ [utf8 "ERROR invalid command\n"] := by
  have h := procesar_sin_clave Entorno.sano [] [] (utf8 "GET") [] [] (by decide) (by decide)
    (by decide)
  have hform : utf8 "GET\n" = [] ++ utf8 "GET" ++ [] ++ 10 :: [] := by decide
  rw [hform, h]
  exact ⟨rfl, by decide⟩

/-- C7, as the code has it: for every directory and every input line that
fits the read, has a key token and whose command token is none of `SET`,
`GET`, `DEL` (compared byte by byte, so `set` and `FOO` qualify), the handler
answers exactly `ERROR comando desconocido\n`, in one write, leaves the
directory unchanged and returns. -/
theorem C7_unknown_command (env : Entorno) (d : Disco) (sp c sp1 k resto : Bytes)
    (hsp : espacios sp) (hc : palabra c) (hc10 : ∀ b ∈ c, b ≠ 10) (hsp1 : espacios sp1)
    (hk : clave_valida k) (hresto : resto = [] ∨ ∃ v, valor_valido v ∧ resto = utf8 " " ++ v)
    (hlen : (sp ++ c ++ utf8 " " ++ sp1 ++ k ++ resto ++ utf8 "\n").length ≤ 1024)
    (h1 : c ≠ utf8 "SET") (h2 : c ≠ utf8 "GET") (h3 : c ≠ utf8 "DEL") :
    procesar_comando env d (some (sp ++ c ++ utf8 " " ++ sp1 ++ k ++ resto ++ utf8 "\n"))
      = ⟨d, [utf8 "ERROR comando desconocido\n"], Final.retorna⟩ := by
  rw [utf8_espacio] at hresto hlen ⊢
  rw [utf8_salto] at hlen ⊢
  have hform : sp ++ c ++ [32] ++ sp1 ++ k ++ resto ++ [10]
      = sp ++ c ++ 32 :: sp1 ++ k ++ resto ++ 10 :: [] := by simp
  obtain ⟨valor, hp⟩ := procesar_con_clave env d sp c sp1 k resto [] hsp hc hc10 hsp1 hk
    (by simpa using hresto) (by
      have : (sp ++ c ++ 32 :: sp1 ++ k ++ resto).length + 1
          = (sp ++ c ++ [32] ++ sp1 ++ k ++ resto ++ [10]).length := by
        simp only [List.length_append, List.length_cons, List.length_nil]
        omega
      rw [MAX_CMD_LEN]
      omega)
  rw [hform, hp, despachar_desconocido env d c k valor h1 h2 h3]
  rfl

theorem C7_unknown_command_witness :
    palabra (utf8 "set") ∧ clave_valida (utf8 "k") ∧
    procesar_comando Entorno.sano [(utf8 "a", utf8 "1")]
        (some ([] ++ utf8 "set" ++ utf8 " " ++ [] ++ utf8 "k" ++ utf8 " v" ++ utf8 "\n"))
      = ⟨[(utf8 "a", utf8 "1")], [utf8 "ERROR comando desconocido\n"], Final.retorna⟩ :=
  ⟨by decide, by decide,
    C7_unknown_command Entorno.sano [(utf8 "a", utf8 "1")] [] (utf8 "set") [] (utf8 "k")
      (utf8 " v") (by decide) (by decide) (by decide) (by decide) (by decide)
      (Or.inr ⟨utf8 "v", by decide, by decide⟩) (by decide) (by decide) (by decide)
      (by decide)⟩

/-- C7, as stated, fails: on the line `FOO k\n` the handler writes
`ERROR comando desconocido\n`, which is not `ERROR unknown command\n`. -/
theorem C7_counterexample :
    (procesar_comando Entorno.sano [] (some (utf8 "FOO k\n"))).enviado
      = [utf8 "ERROR comando desconocido\n"] ∧
    (procesar_comando Entorno.sano [] (some (utf8 "FOO k\n"))).enviado
      ≠ [utf8 "ERROR unknown command\n"] := by
  have hform : utf8 "FOO k\n" = utf8 "FOO" ++ 32 :: utf8 "k" ++ 10 :: [] := by decide
  rw [hform, procesar_orden_clave Entorno.sano [] (utf8 "FOO") (utf8 "k") [] (by decide)
    (by decide) (by decide) (by decide),
    despachar_desconocido _ _ _ _ _ (by decide) (by decide) (by decide)]
  exact ⟨rfl, by decide⟩

/-! ## Claims C8, C9 and C10 -/

theorem buscar_cabeza (d : Disco) (k s : Bytes) : buscar ((k, s) :: d) k = some s := by
  simp [buscar]

/-- C8, as the code has it: for every key `k` whose file holds `s` without
NUL byte, with open and read succeeding, the handler answers to `GET k`
exactly `OK\n`, the first min(|s|, 4095) bytes of `s`, and a newline; so a
value of at most 4095 bytes is returned whole. -/
theorem C8_get_truncation (env : Entorno) (d : Disco) (k s : Bytes) (hk : clave_valida k)
    (hlen : (pedido_get k).length ≤ 1024) (hb : buscar d k = some s) (hs : ∀ b ∈ s, b ≠ 0)
    (h3 : env.falla_open_lectura = false) (h4 : env.falla_read = false) :
    (procesar_comando env d (some (pedido_get k))).enviado
        = [utf8 "OK\n" ++ s.take (min s.length 4095) ++ utf8 "\n"] ∧
    (s.length ≤ 4095 →
      (procesar_comando env d (some (pedido_get k))).enviado = [utf8 "OK\n" ++ s ++ utf8 "\n"]) := by
  rw [procesar_get_presente env d k s hk hlen hb hs h3 h4]
  have hmin : s.take (min s.length 4095) = s.take 4095 := by
    rcases Nat.le_total s.length 4095 with h | h
    · rw [Nat.min_eq_left h, List.take_of_length_le h, List.take_of_length_le (Nat.le_refl _)]
    · rw [Nat.min_eq_right h]
  refine ⟨by rw [hmin], fun h => ?_⟩
  rw [List.take_of_length_le h]

theorem C8_get_truncation_witness :
    clave_valida (utf8 "k") ∧ buscar [(utf8 "k", utf8 "abc")] (utf8 "k") = some (utf8 "abc") ∧
    (procesar_comando Entorno.sano [(utf8 "k", utf8 "abc")] (some (pedido_get (utf8 "k")))).enviado
        = [utf8 "OK\n" ++ (utf8 "abc").take (min (utf8 "abc").length 4095) ++ utf8 "\n"] ∧
    ((utf8 "abc").length ≤ 4095 →
      (procesar_comando Entorno.sano [(utf8 "k", utf8 "abc")]
        (some (pedido_get (utf8 "k")))).enviado = [utf8 "OK\n" ++ utf8 "abc" ++ utf8 "\n"]) :=
  ⟨by decide, by decide,
    C8_get_truncation Entorno.sano [(utf8 "k", utf8 "abc")] (utf8 "k") (utf8 "abc") (by decide)
      (by decide) (by decide) (by decide) rfl rfl⟩

/-- C8, as stated, fails: a stored value of exactly 4096 bytes (4096 times
the letter `a`) is not returned whole by `GET`; the response carries its
first 4095 bytes. -/
theorem C8_counterexample :
    (procesar_comando Entorno.sano [(utf8 "k", List.replicate 4096 97)]
        (some (pedido_get (utf8 "k")))).enviado
      = [utf8 "OK\n" ++ List.replicate 4095 97 ++ utf8 "\n"] ∧
    (procesar_comando Entorno.sano [(utf8 "k", List.replicate 4096 97)]
        (some (pedido_get (utf8 "k")))).enviado
      ≠ [utf8 "OK\n" ++ (List.replicate 4096 97).take (min (List.replicate 4096 97).length 4096)
          ++ utf8 "\n"] := by
  rw [procesar_get_presente Entorno.sano _ (utf8 "k") (List.replicate 4096 97) (by decide)
    (by decide) (buscar_cabeza _ _ _)
    (fun b hb => by rw [List.eq_of_mem_replicate hb]; decide) rfl rfl]
  refine ⟨by rw [List.take_replicate, Nat.min_eq_left (by decide)], ?_⟩
  intro h
  have hl := congrArg (fun l => (l.map List.length)) h
  simp only [List.map_cons, List.map_nil, List.length_append, List.length_take,
    List.length_replicate, List.cons.injEq, and_true] at hl
  omega

/-- C9: SET without a value stores the empty value.  For every directory and
key `k` (whatever `k` held before), with the system calls succeeding, the
handler answers to `SET k\n` exactly `OK\n` and leaves `k` with the empty
content, and then answers to `GET k` exactly `OK\n\n`. -/
theorem C9_set_without_value (env1 env2 : Entorno) (d : Disco) (k : Bytes)
    (hk : clave_valida k) (hlen : (pedido_set_vacio k).length ≤ 1024)
    (h1 : env1.falla_open_escritura = false)
    (h3 : env2.falla_open_lectura = false) (h4 : env2.falla_read = false) :
    (procesar_comando env1 d (some (pedido_set_vacio k))).enviado = [utf8 "OK\n"] ∧
    buscar (procesar_comando env1 d (some (pedido_set_vacio k))).disco k = some [] ∧
    (procesar_comando env2 (procesar_comando env1 d (some (pedido_set_vacio k))).disco
        (some (pedido_get k))).enviado = [utf8 "OK\n\n"] := by
  have hg : (pedido_get k).length ≤ MAX_CMD_LEN := by
    rw [pedido_get_length, ← pedido_set_vacio_length]
    exact hlen
  rw [procesar_set_vacio env1 d k hk hlen h1]
  refine ⟨rfl, buscar_guardar d k [], ?_⟩
  rw [procesar_get_presente env2 _ k [] hk hg (buscar_guardar d k [])
    (fun b hb => absurd hb (List.not_mem_nil _)) h3 h4]
  show [utf8 "OK\n" ++ List.take 4095 [] ++ utf8 "\n"] = [utf8 "OK\n\n"]
  decide

theorem C9_set_without_value_witness :
    clave_valida (utf8 "k") ∧
    (procesar_comando Entorno.sano [(utf8 "k", utf8 "antes")]
      (some (pedido_set_vacio (utf8 "k")))).enviado = [utf8 "OK\n"] ∧
    buscar (procesar_comando Entorno.sano [(utf8 "k", utf8 "antes")]
      (some (pedido_set_vacio (utf8 "k")))).disco (utf8 "k") = some [] ∧
    (procesar_comando Entorno.sano
        (procesar_comando Entorno.sano [(utf8 "k", utf8 "antes")]
          (some (pedido_set_vacio (utf8 "k")))).disco
        (some (pedido_get (utf8 "k")))).enviado = [utf8 "OK\n\n"] :=
  ⟨by decide,
    C9_set_without_value Entorno.sano Entorno.sano [(utf8 "k", utf8 "antes")] (utf8 "k")
      (by decide) (by decide) rfl rfl rfl⟩

/-- What follows the first newline of the read does not reach the line. -/
theorem linea_de_resto (l rest : Bytes) (hl : ∀ b ∈ l, b ≠ 10) :
    linea_de (l ++ 10 :: rest) = (l.take MAX_CMD_LEN).takeWhile fun b => b != 0 := by
  have h10 : ∀ (m : Bytes), (∀ b ∈ m, b ∈ l) → m.takeWhile (fun b => b != 10) = m :=
    fun m hm => List.takeWhile_eq_self_iff.2 fun b hb => by simpa using hl b (hm b hb)
  unfold linea_de
  rw [List.take_append_eq_append_take]
  rcases Nat.lt_or_ge l.length MAX_CMD_LEN with hlt | hge
  · obtain ⟨m, hm⟩ : ∃ m, MAX_CMD_LEN - l.length = m + 1 := ⟨MAX_CMD_LEN - l.length - 1, by omega⟩
    rw [hm, List.take_succ_cons, List.take_of_length_le (Nat.le_of_lt hlt), List.takeWhile_append]
    split
    · rename_i heq
      have hself : l.takeWhile (fun b => b != 0) = l :=
        (List.takeWhile_prefix _).eq_of_length heq
      rw [List.takeWhile_cons_of_pos (by decide), hself]
      exact takeWhile_hasta _ l 10 _ (by simpa using hl) (by decide)
    · exact h10 _ fun b hb => (List.takeWhile_sublist _).subset hb
  · rw [Nat.sub_eq_zero_of_le hge, List.take_zero, List.append_nil]
    exact h10 _ fun b hb => List.mem_of_mem_take ((List.takeWhile_sublist _).subset hb)

/-- C10: only the first line is honoured.  For every directory, every line
`l` without newline and every byte string `rest`, the handler run on the read
`l`, newline, `rest` gives the same result (responses, directory, ending) as
on the read `l`, newline. -/
theorem C10_first_line_only (env : Entorno) (d : Disco) (l rest : Bytes)
    (hl : ∀ b ∈ l, b ≠ 10) :
    procesar_comando env d (some (l ++ utf8 "\n" ++ rest))
      = procesar_comando env d (some (l ++ utf8 "\n")) := by
  apply procesar_comando_congr
  rw [utf8_salto, List.append_assoc]
  exact (linea_de_resto l rest hl).trans (linea_de_resto l [] hl).symm

theorem C10_first_line_only_witness :
    (∀ b ∈ utf8 "SET a 1", b ≠ 10) ∧
    procesar_comando Entorno.sano [] (some (utf8 "SET a 1" ++ utf8 "\n" ++ utf8 "DEL a\n"))
      = procesar_comando Entorno.sano [] (some (utf8 "SET a 1" ++ utf8 "\n")) :=
  ⟨by decide, C10_first_line_only Entorno.sano [] (utf8 "SET a 1") (utf8 "DEL a\n") (by decide)⟩


/-! ## Claim C11 -/

/-- C11, as the code has it: only the space separates tokens.  For every
directory, key `k` and value `v` without space, the requests written with
tabs, `GET\tk\n` and `SET\tk\tv\n`, are each one single token: the handler
answers exactly `ERROR comando inválido\n`, leaves the directory unchanged
and returns. -/
theorem C11_tab_is_not_a_delimiter (env : Entorno) (d : Disco) (k v : Bytes)
    (hk : clave_valida k) (hv : ∀ b ∈ v, b ≠ 32 ∧ b ≠ 10 ∧ b ≠ 0) :
    procesar_comando env d (some (utf8 "GET\t" ++ k ++ utf8 "\n"))
      = ⟨d, [utf8 "ERROR comando inválido\n"], Final.retorna⟩ ∧
    procesar_comando env d (some (utf8 "SET\t" ++ k ++ utf8 "\t" ++ v ++ utf8 "\n"))
      = ⟨d, [utf8 "ERROR comando inválido\n"], Final.retorna⟩ := by
  have hg : utf8 "GET\t" = [71, 69, 84, 9] := by decide
  have hs : utf8 "SET\t" = [83, 69, 84, 9] := by decide
  have ht : utf8 "\t" = [9] := by decide
  have hgb : ∀ b ∈ [71, 69, 84, 9], b ≠ 32 ∧ b ≠ 10 ∧ b ≠ 0 := by decide
  have hsb : ∀ b ∈ [83, 69, 84, 9], b ≠ 32 ∧ b ≠ 10 ∧ b ≠ 0 := by decide
  have htb : ∀ b ∈ [9], b ≠ 32 ∧ b ≠ 10 ∧ b ≠ 0 := by decide
  constructor
  · have h := procesar_sin_clave env d [] ([71, 69, 84, 9] ++ k) [] [] espacios_nil (by
      intro b hb
      rcases List.mem_append.1 hb with h | h
      · exact hgb b h
      · exact hk.2 b h) espacios_nil
    rw [hg, utf8_salto]
    simpa using h
  · have h := procesar_sin_clave env d [] ([83, 69, 84, 9] ++ k ++ [9] ++ v) [] []
      espacios_nil (by
      intro b hb
      simp only [List.mem_append] at hb
      rcases hb with ((h | h) | h) | h
      · exact hsb b h
      · exact hk.2 b h
      · exact htb b h
      · exact hv b h) espacios_nil
    rw [hs, ht, utf8_salto]
    simpa using h

theorem C11_tab_is_not_a_delimiter_witness :
    clave_valida (utf8 "k") ∧
    procesar_comando Entorno.sano [(utf8 "k", utf8 "v")] (some (utf8 "GET\t" ++ utf8 "k" ++ utf8 "\n"))
      = ⟨[(utf8 "k", utf8 "v")], [utf8 "ERROR comando inválido\n"], Final.retorna⟩ ∧
    procesar_comando Entorno.sano [(utf8 "k", utf8 "v")]
        (some (utf8 "SET\t" ++ utf8 "k" ++ utf8 "\t" ++ utf8 "w" ++ utf8 "\n"))
      = ⟨[(utf8 "k", utf8 "v")], [utf8 "ERROR comando inválido\n"], Final.retorna⟩ :=
  ⟨by decide,
    C11_tab_is_not_a_delimiter Entorno.sano [(utf8 "k", utf8 "v")] (utf8 "k") (utf8 "w")
      (by decide) (by decide)⟩

/-- C11, as stated, fails: with the key `k` holding `v`, the request
`GET\tk\n` is answered `ERROR comando inválido\n` while `GET k\n` is answered
`OK\nv\n`. -/
theorem C11_counterexample :
    (procesar_comando Entorno.sano [(utf8 "k", utf8 "v")] (some (utf8 "GET\tk\n"))).enviado
      = [utf8 "ERROR comando inválido\n"] ∧
    (procesar_comando Entorno.sano [(utf8 "k", utf8 "v")] (some (utf8 "GET k\n"))).enviado
      = [utf8 "OK\nv\n"] ∧
    (procesar_comando Entorno.sano [(utf8 "k", utf8 "v")] (some (utf8 "GET\tk\n"))).enviado
      ≠ (procesar_comando Entorno.sano [(utf8 "k", utf8 "v")] (some (utf8 "GET k\n"))).enviado := by
  have h1 := procesar_sin_clave Entorno.sano [(utf8 "k", utf8 "v")] [] (utf8 "GET\tk") [] []
    (by decide) (by decide) (by decide)
  have hform : utf8 "GET\tk\n" = [] ++ utf8 "GET\tk" ++ [] ++ 10 :: [] := by decide
  have h2 := procesar_get_presente Entorno.sano [(utf8 "k", utf8 "v")] (utf8 "k") (utf8 "v")
    (by decide) (by decide) (by decide) (by decide) rfl rfl
  have hform2 : utf8 "GET k\n" = pedido_get (utf8 "k") := by decide
  rw [hform, h1, hform2, h2]
  exact ⟨rfl, by decide, by decide⟩


/-! ## Claims C12 and C13 -/

/-- C12, what the code does where the claim asks for a return to the accept
loop: when the read of the connection fails, the handler leaves the directory
unchanged and writes nothing, but it ends the process through `error_exit`;
in the loop of `main` no later turn is served. -/
theorem C12_read_failure_ends_process (env : Entorno) (d : Disco) (resto : List Turno) :
    procesar_comando env d none = ⟨d, [], Final.termina_proceso⟩ ∧
    bucle d (Turno.cliente env none :: resto) = ⟨d, [[]], false⟩ ∧
    main false false false d (Turno.cliente env none :: resto) = ⟨d, [[]], false⟩ := by
  have h : procesar_comando env d none = ⟨d, [], Final.termina_proceso⟩ := rfl
  refine ⟨h, ?_, ?_⟩
  · simp only [bucle, h]
  · simp only [main, Bool.false_eq_true, if_false, bucle, h]

theorem ERROR_ABRIR_forma :
    ERROR_ABRIR = utf8 "ERROR " ++ utf8 "al abrir archivo" ++ utf8 "\n" ∧
    ∀ b ∈ utf8 "al abrir archivo", b ≠ 10 := by decide

theorem ERROR_ESCRIBIR_forma :
    ERROR_ESCRIBIR = utf8 "ERROR " ++ utf8 "al escribir archivo" ++ utf8 "\n" ∧
    ∀ b ∈ utf8 "al escribir archivo", b ≠ 10 := by decide

theorem errores_no_ok : [ERROR_ABRIR] ≠ [utf8 "OK\n"] ∧ [ERROR_ESCRIBIR] ≠ [utf8 "OK\n"] := by
  decide

theorem despachar_set_falla_open (env : Entorno) (d : Disco) (k : Bytes) (valor : Option Bytes)
    (h1 : env.falla_open_escritura = true) :
    despachar env d (some (utf8 "SET")) (some k) valor = ⟨d, [ERROR_ABRIR], Final.retorna⟩ := by
  simp [despachar, open_escritura, h1]

theorem despachar_set_falla_write (env : Entorno) (d : Disco) (k v : Bytes)
    (h1 : env.falla_open_escritura = false) (h2 : env.falla_write = true) :
    despachar env d (some (utf8 "SET")) (some k) (some v)
      = ⟨guardar d k [], [ERROR_ESCRIBIR], Final.retorna⟩ := by
  simp [despachar, open_escritura, write_archivo, h1, h2]

/-- The request `SET k v` is dispatched as SET on `k`, with the value NULL
when `v` is empty. -/
theorem procesar_set_despacho (env : Entorno) (d : Disco) (k v : Bytes) (hk : clave_valida k)
    (hv : valor_valido v) (hlen : (pedido_set k v).length ≤ MAX_CMD_LEN) :
    procesar_comando env d (some (pedido_set k v))
      = despachar env d (some (utf8 "SET")) (some k) (if v = [] then none else some v) := by
  have hform : pedido_set k v = utf8 "SET" ++ 32 :: k ++ 32 :: v ++ 10 :: [] := by
    simp [pedido_set, utf8_SET_esp, utf8_SET, utf8_espacio, utf8_salto]
  rw [pedido_set_length] at hlen
  rw [hform, procesar_orden_clave_valor env d _ k v [] palabra_SET.1 palabra_SET.2 hk hv
    (by simp [utf8_SET]; omega)]

/-- C13: SET reports a storage failure inline.  For every directory and
every request `SET k v`, if the open of the file of `k` fails, or if it
succeeds and the write of `v` (non-empty, so that the write is made) fails,
the handler returns normally and makes exactly one write to the client, which
is not `OK\n` and is one line `ERROR <reason>\n`: `ERROR al abrir archivo\n`
in the first case, with the directory unchanged, `ERROR al escribir
archivo\n` in the second. -/
theorem C13_set_reports_failure (env : Entorno) (d : Disco) (k v : Bytes)
    (hk : clave_valida k) (hv : valor_valido v) (hlen : (pedido_set k v).length ≤ 1024)
    (hfalla : env.falla_open_escritura = true ∨ (env.falla_write = true ∧ v ≠ [])) :
    (procesar_comando env d (some (pedido_set k v))).final = Final.retorna ∧
    (procesar_comando env d (some (pedido_set k v))).enviado ≠ [utf8 "OK\n"] ∧
    (∃ razon, (∀ b ∈ razon, b ≠ 10) ∧
      (procesar_comando env d (some (pedido_set k v))).enviado
        = [utf8 "ERROR " ++ razon ++ utf8 "\n"]) ∧
    (env.falla_open_escritura = true →
      procesar_comando env d (some (pedido_set k v))
        = ⟨d, [utf8 "ERROR al abrir archivo\n"], Final.retorna⟩) ∧
    (env.falla_open_escritura = false →
      (procesar_comando env d (some (pedido_set k v))).enviado
        = [utf8 "ERROR al escribir archivo\n"]) := by
  rw [procesar_set_despacho env d k v hk hv hlen]
  cases h1 : env.falla_open_escritura
  · rcases hfalla with h | ⟨h2, hve⟩
    · rw [h1] at h
      exact absurd h (by decide)
    · rw [if_neg hve, despachar_set_falla_write env d k v h1 h2]
      refine ⟨rfl, errores_no_ok.2, ⟨utf8 "al escribir archivo", ERROR_ESCRIBIR_forma.2, ?_⟩,
        fun h => absurd h (by decide), fun _ => rfl⟩
      exact congrArg (fun x => [x]) ERROR_ESCRIBIR_forma.1
  · rw [despachar_set_falla_open env d k _ h1]
    refine ⟨rfl, errores_no_ok.1, ⟨utf8 "al abrir archivo", ERROR_ABRIR_forma.2, ?_⟩,
      fun _ => rfl, fun h => absurd h (by decide)⟩
    exact congrArg (fun x => [x]) ERROR_ABRIR_forma.1

theorem C13_set_reports_failure_witness :
    clave_valida (utf8 "k") ∧ valor_valido (utf8 "v") ∧
    (procesar_comando ⟨true, false, false, false, false⟩ [] (some (pedido_set (utf8 "k") (utf8 "v")))).final
      = Final.retorna ∧
    (procesar_comando ⟨true, false, false, false, false⟩ [] (some (pedido_set (utf8 "k") (utf8 "v")))).enviado
      ≠ [utf8 "OK\n"] ∧
    (∃ razon, (∀ b ∈ razon, b ≠ 10) ∧
      (procesar_comando ⟨true, false, false, false, false⟩ [] (some (pedido_set (utf8 "k") (utf8 "v")))).enviado
        = [utf8 "ERROR " ++ razon ++ utf8 "\n"]) ∧
    ((⟨true, false, false, false, false⟩ : Entorno).falla_open_escritura = true →
      procesar_comando ⟨true, false, false, false, false⟩ [] (some (pedido_set (utf8 "k") (utf8 "v")))
        = ⟨[], [utf8 "ERROR al abrir archivo\n"], Final.retorna⟩) ∧
    ((⟨true, false, false, false, false⟩ : Entorno).falla_open_escritura = false →
      (procesar_comando ⟨true, false, false, false, false⟩ [] (some (pedido_set (utf8 "k") (utf8 "v")))).enviado
        = [utf8 "ERROR al escribir archivo\n"]) :=
  ⟨by decide, by decide,
    C13_set_reports_failure ⟨true, false, false, false, false⟩ [] (utf8 "k") (utf8 "v")
      (by decide) (by decide) (by decide) (Or.inl rfl)⟩


/-! ## Claim C14 -/

theorem despachar_get_falla_open (env : Entorno) (d : Disco) (k : Bytes)
    (valor : Option Bytes) (h3 : env.falla_open_lectura = true) :
    despachar env d (some (utf8 "GET")) (some k) valor
      = ⟨d, [RESPONSE_NOTFOUND], Final.retorna⟩ := by
  have hne : utf8 "GET" ≠ utf8 "SET" := by decide
  simp [despachar, open_lectura, h3, hne]

theorem despachar_get_falla_read (env : Entorno) (d : Disco) (k s : Bytes)
    (valor : Option Bytes) (hb : buscar d k = some s)
    (h3 : env.falla_open_lectura = false) (h4 : env.falla_read = true) :
    despachar env d (some (utf8 "GET")) (some k) valor = ⟨d, [ERROR_LEER], Final.retorna⟩ := by
  have hne : utf8 "GET" ≠ utf8 "SET" := by decide
  unfold despachar
  generalize List.replicate 4096 0 = buf
  simp only [hne, if_false, if_true, open_lectura, h3, hb, read_archivo, h4,
    Bool.false_eq_true]
  rw [if_pos (by decide)]

theorem leer_no_notfound : [ERROR_LEER] ≠ [utf8 "NOTFOUND\n"] := by decide

theorem ok_no_notfound (x : Bytes) : [utf8 "OK\n" ++ x ++ utf8 "\n"] ≠ [utf8 "NOTFOUND\n"] := by
  have h1 : utf8 "OK\n" = [79, 75, 10] := by decide
  have h2 : utf8 "NOTFOUND\n" = [78, 79, 84, 70, 79, 85, 78, 68, 10] := by decide
  rw [h1, h2]
  intro h
  simp at h

/-- C14, as the code has it: GET answers `NOTFOUND\n` exactly when the open
of the file of `k` fails, that is when `k` names no file or when the open
fails for another reason; a failure of the read after a successful open is
answered `ERROR al leer archivo\n`, with the directory unchanged. -/
theorem C14_get_notfound_on_any_open_failure (env : Entorno) (d : Disco) (k : Bytes)
    (hk : clave_valida k) (hlen : (pedido_get k).length ≤ 1024) :
    ((procesar_comando env d (some (pedido_get k))).enviado = [utf8 "NOTFOUND\n"]
      ↔ (buscar d k = none ∨ env.falla_open_lectura = true)) ∧
    (buscar d k ≠ none → env.falla_open_lectura = false → env.falla_read = true →
      procesar_comando env d (some (pedido_get k))
        = ⟨d, [utf8 "ERROR al leer archivo\n"], Final.retorna⟩) := by
  rw [procesar_get env d k hk hlen]
  cases hb : buscar d k with
  | none =>
    rw [despachar_get_ausente env d k none hb]
    exact ⟨⟨fun _ => Or.inl rfl, fun _ => rfl⟩, fun h => absurd rfl h⟩
  | some s =>
    cases h3 : env.falla_open_lectura
    · cases h4 : env.falla_read
      · rw [despachar_get_presente env d k s none hb h3 h4]
        refine ⟨⟨fun h => absurd h (ok_no_notfound _), ?_⟩, fun _ _ h => absurd h (by decide)⟩
        rintro (h | h)
        · exact absurd h (by simp)
        · exact absurd h (by decide)
      · rw [despachar_get_falla_read env d k s none hb h3 h4]
        refine ⟨⟨fun h => absurd h leer_no_notfound, ?_⟩, fun _ _ _ => rfl⟩
        rintro (h | h)
        · exact absurd h (by simp)
        · exact absurd h (by decide)
    · rw [despachar_get_falla_open env d k none h3]
      exact ⟨⟨fun _ => Or.inr rfl, fun _ => rfl⟩, fun _ h => absurd h (by decide)⟩

theorem C14_get_notfound_on_any_open_failure_witness :
    clave_valida (utf8 "k") ∧
    ((procesar_comando ⟨false, false, false, true, false⟩ [(utf8 "k", utf8 "v")]
        (some (pedido_get (utf8 "k")))).enviado = [utf8 "NOTFOUND\n"]
      ↔ (buscar [(utf8 "k", utf8 "v")] (utf8 "k") = none ∨
          (⟨false, false, false, true, false⟩ : Entorno).falla_open_lectura = true)) ∧
    (buscar [(utf8 "k", utf8 "v")] (utf8 "k") ≠ none →
      (⟨false, false, false, true, false⟩ : Entorno).falla_open_lectura = false →
      (⟨false, false, false, true, false⟩ : Entorno).falla_read = true →
      procesar_comando ⟨false, false, false, true, false⟩ [(utf8 "k", utf8 "v")]
          (some (pedido_get (utf8 "k")))
        = ⟨[(utf8 "k", utf8 "v")], [utf8 "ERROR al leer archivo\n"], Final.retorna⟩) :=
  ⟨by decide,
    C14_get_notfound_on_any_open_failure ⟨false, false, false, true, false⟩
      [(utf8 "k", utf8 "v")] (utf8 "k") (by decide) (by decide)⟩

/-- C14, as stated, fails: the key `k` holds `v`, the open of its file fails
(as with a permission denied), and the response is `NOTFOUND\n`, not an
`ERROR` line. -/
theorem C14_counterexample :
    buscar [(utf8 "k", utf8 "v")] (utf8 "k") = some (utf8 "v") ∧
    procesar_comando ⟨false, false, true, false, false⟩ [(utf8 "k", utf8 "v")]
        (some (utf8 "GET k\n"))
      = ⟨[(utf8 "k", utf8 "v")], [utf8 "NOTFOUND\n"], Final.retorna⟩ := by
  have hform : utf8 "GET k\n" = pedido_get (utf8 "k") := by decide
  rw [hform, procesar_get _ _ (utf8 "k") (by decide) (by decide),
    despachar_get_falla_open _ _ _ none rfl]
  exact ⟨by decide, rfl⟩


/-! ## Every path of the dispatch -/

theorem termina_en_salto (x : Bytes) : (x ++ utf8 "\n").getLast? = some 10 := by
  rw [utf8_salto]
  simp

theorem errores_terminan_en_salto :
    ERROR_INVALIDO.getLast? = some 10 ∧ ERROR_ABRIR.getLast? = some 10 ∧
    ERROR_ESCRIBIR.getLast? = some 10 ∧ ERROR_LEER.getLast? = some 10 ∧
    ERROR_DESCONOCIDO.getLast? = some 10 ∧ RESPONSE_OK.getLast? = some 10 ∧
    RESPONSE_NOTFOUND.getLast? = some 10 := by decide

/-- Whatever the tokens and the outcomes of the system calls, the dispatch
returns after exactly one write, which ends with a newline, and leaves the
directory as it was, or with one file `k` rewritten (empty, or holding the
value of a SET), or with the file `k` removed, `k` being the key token. -/
theorem despachar_forma (env : Entorno) (d : Disco) (comando clave valor : Option Bytes) :
    ∃ resp, resp.getLast? = some 10 ∧
      (despachar env d comando clave valor = ⟨d, [resp], Final.retorna⟩ ∨
        ∃ k, clave = some k ∧
          (despachar env d comando clave valor = ⟨quitar d k, [resp], Final.retorna⟩ ∨
            ∃ x, (x = [] ∨ (comando = some (utf8 "SET") ∧ valor = some x)) ∧
              despachar env d comando clave valor = ⟨guardar d k x, [resp], Final.retorna⟩)) := by
  cases clave with
  | none => exact ⟨_, errores_terminan_en_salto.1, Or.inl (despachar_sin_clave env d comando valor)⟩
  | some k =>
    cases comando with
    | none => exact ⟨_, errores_terminan_en_salto.1, Or.inl rfl⟩
    | some c =>
      by_cases hS : c = utf8 "SET"
      · subst hS
        cases h1 : env.falla_open_escritura
        · cases valor with
          | none =>
            exact ⟨_, errores_terminan_en_salto.2.2.2.2.2.1, Or.inr ⟨k, rfl, Or.inr
              ⟨[], Or.inl rfl, despachar_set_nulo env d k h1⟩⟩⟩
          | some v =>
            cases h2 : env.falla_write
            · exact ⟨_, errores_terminan_en_salto.2.2.2.2.2.1, Or.inr ⟨k, rfl, Or.inr
                ⟨v, Or.inr ⟨rfl, rfl⟩, despachar_set_valor env d k v h1 h2⟩⟩⟩
            · exact ⟨_, errores_terminan_en_salto.2.2.1, Or.inr ⟨k, rfl, Or.inr
                ⟨[], Or.inl rfl, despachar_set_falla_write env d k v h1 h2⟩⟩⟩
        · exact ⟨_, errores_terminan_en_salto.2.1,
            Or.inl (despachar_set_falla_open env d k valor h1)⟩
      · by_cases hG : c = utf8 "GET"
        · subst hG
          cases h3 : env.falla_open_lectura
          · cases hb : buscar d k with
            | none =>
              exact ⟨_, errores_terminan_en_salto.2.2.2.2.2.2,
                Or.inl (despachar_get_ausente env d k valor hb)⟩
            | some s =>
              cases h4 : env.falla_read
              · exact ⟨_, termina_en_salto _,
                  Or.inl (despachar_get_presente env d k s valor hb h3 h4)⟩
              · exact ⟨_, errores_terminan_en_salto.2.2.2.1,
                  Or.inl (despachar_get_falla_read env d k s valor hb h3 h4)⟩
          · exact ⟨_, errores_terminan_en_salto.2.2.2.2.2.2,
              Or.inl (despachar_get_falla_open env d k valor h3)⟩
        · by_cases hD : c = utf8 "DEL"
          · subst hD
            cases h5 : env.falla_unlink
            · refine ⟨_, errores_terminan_en_salto.2.2.2.2.2.1, Or.inr ⟨k, rfl, Or.inl ?_⟩⟩
              rw [despachar_del, unlink, h5]
              rfl
            · refine ⟨_, errores_terminan_en_salto.2.2.2.2.2.1, Or.inl ?_⟩
              rw [despachar_del, unlink, h5]
              rfl
          · exact ⟨_, errores_terminan_en_salto.2.2.2.2.1,
              Or.inl (despachar_desconocido env d c k valor hS hG hD)⟩

/-! ## Claim C15 -/

/-- C15: exactly one framed response per command.  For every directory,
every outcome of the system calls and every input on which the read
succeeds, the handler returns after exactly one write to the client, whose
bytes are non-empty and end with a newline; and the directory it leaves is the
one it found, or that one after one put (one file rewritten), or after one
delete (one file removed). -/
theorem C15_one_framed_response (env : Entorno) (d : Disco) (bs : Bytes) :
    (procesar_comando env d (some bs)).final = Final.retorna ∧
    (∃ resp, (procesar_comando env d (some bs)).enviado = [resp] ∧ resp ≠ [] ∧
      resp.getLast? = some 10) ∧
    ((procesar_comando env d (some bs)).disco = d ∨
      ∃ k, (∃ x, (procesar_comando env d (some bs)).disco = guardar d k x) ∨
        (procesar_comando env d (some bs)).disco = quitar d k) := by
  obtain ⟨post, hp⟩ := procesar_comando_linea env d bs
  obtain ⟨resp, hresp, h⟩ := despachar_forma env d (analizar (linea_de bs ++ 0 :: post)).1
    (analizar (linea_de bs ++ 0 :: post)).2.1 (analizar (linea_de bs ++ 0 :: post)).2.2
  have hne : resp ≠ [] := by
    intro h0
    rw [h0] at hresp
    exact absurd hresp (by decide)
  rw [hp]
  rcases h with h | ⟨k, _, h | ⟨x, _, h⟩⟩
  · rw [h]
    exact ⟨rfl, ⟨resp, rfl, hne, hresp⟩, Or.inl rfl⟩
  · rw [h]
    exact ⟨rfl, ⟨resp, rfl, hne, hresp⟩, Or.inr ⟨k, Or.inr rfl⟩⟩
  · rw [h]
    exact ⟨rfl, ⟨resp, rfl, hne, hresp⟩, Or.inr ⟨k, Or.inl ⟨x, rfl⟩⟩⟩


/-! ## Claim C16 -/

theorem buscar_cons (d : Disco) (a b kp : Bytes) :
    buscar ((a, b) :: d) kp = if a = kp then some b else buscar d kp := by
  by_cases h : a = kp <;> simp [buscar, List.find?_cons, h]

theorem quitar_cons (d : Disco) (a b k : Bytes) :
    quitar ((a, b) :: d) k = if a = k then quitar d k else (a, b) :: quitar d k := by
  by_cases h : a = k <;> simp [quitar, List.filter_cons, h]

theorem buscar_quitar_otro (d : Disco) (k kp : Bytes) (h : kp ≠ k) :
    buscar (quitar d k) kp = buscar d kp := by
  induction d with
  | nil => rfl
  | cons e d ih =>
    obtain ⟨a, b⟩ := e
    rw [quitar_cons, buscar_cons]
    by_cases h1 : a = k
    · have h2 : ¬ a = kp := fun h3 => h (h3.symm.trans h1)
      rw [if_pos h1, if_neg h2, ih]
    · rw [if_neg h1, buscar_cons, ih]

theorem buscar_guardar_otro (d : Disco) (k x kp : Bytes) (h : kp ≠ k) :
    buscar (guardar d k x) kp = buscar d kp := by
  have h2 : ¬ k = kp := fun h3 => h h3.symm
  unfold guardar
  rw [buscar_cons, if_neg h2, buscar_quitar_otro d k kp h]

theorem despachar_get_disco (env : Entorno) (d : Disco) (k : Bytes) (valor : Option Bytes) :
    (despachar env d (some (utf8 "GET")) (some k) valor).disco = d := by
  cases h3 : env.falla_open_lectura
  · cases hb : buscar d k with
    | none => rw [despachar_get_ausente env d k valor hb]
    | some s =>
      cases h4 : env.falla_read
      · rw [despachar_get_presente env d k s valor hb h3 h4]
      · rw [despachar_get_falla_read env d k s valor hb h3 h4]
  · rw [despachar_get_falla_open env d k valor h3]

/-- The dispatch changes at most the file named by the key token. -/
theorem despachar_marco (env : Entorno) (d : Disco) (comando valor : Option Bytes)
    (k kp : Bytes) (h : kp ≠ k) :
    buscar (despachar env d comando (some k) valor).disco kp = buscar d kp := by
  obtain ⟨resp, _, hf⟩ := despachar_forma env d comando (some k) valor
  rcases hf with hf | ⟨k2, hk2, hf | ⟨x, _, hf⟩⟩
  · rw [hf]
  · cases hk2
    rw [hf]
    exact buscar_quitar_otro d k kp h
  · cases hk2
    rw [hf]
    exact buscar_guardar_otro d k x kp h

/-- C16: frame of the store operations.  For every directory and every
outcome of the system calls: after `SET k v` and after `DEL k` every name
other than `k` has the file it had (or none, as before); `GET k`, the lines
without a key and the lines with an unknown command leave the whole directory
unchanged; and whatever the read delivers (or if it fails), at most one name
has its file changed. -/
theorem C16_frame (env : Entorno) (d : Disco) :
    (∀ k v kp, clave_valida k → valor_valido v → (pedido_set k v).length ≤ 1024 → kp ≠ k →
      buscar (procesar_comando env d (some (pedido_set k v))).disco kp = buscar d kp) ∧
    (∀ k kp, clave_valida k → (pedido_del k).length ≤ 1024 → kp ≠ k →
      buscar (procesar_comando env d (some (pedido_del k))).disco kp = buscar d kp) ∧
    (∀ k, clave_valida k → (pedido_get k).length ≤ 1024 →
      (procesar_comando env d (some (pedido_get k))).disco = d) ∧
    (∀ sp c sp1, espacios sp → (∀ b ∈ c, b ≠ 32 ∧ b ≠ 10 ∧ b ≠ 0) → espacios sp1 →
      (procesar_comando env d (some (sp ++ c ++ sp1 ++ utf8 "\n"))).disco = d) ∧
    (∀ sp c sp1 k resto, espacios sp → palabra c → (∀ b ∈ c, b ≠ 10) → espacios sp1 →
      clave_valida k → (resto = [] ∨ ∃ v, valor_valido v ∧ resto = utf8 " " ++ v) →
      (sp ++ c ++ utf8 " " ++ sp1 ++ k ++ resto ++ utf8 "\n").length ≤ 1024 →
      c ≠ utf8 "SET" → c ≠ utf8 "GET" → c ≠ utf8 "DEL" →
      (procesar_comando env d
        (some (sp ++ c ++ utf8 " " ++ sp1 ++ k ++ resto ++ utf8 "\n"))).disco = d) ∧
    (∀ lectura, ∃ k, ∀ kp, kp ≠ k →
      buscar (procesar_comando env d lectura).disco kp = buscar d kp) := by
  refine ⟨?_, ?_, ?_, ?_, ?_, ?_⟩
  · intro k v kp hk hv hlen hne
    rw [procesar_set_despacho env d k v hk hv hlen]
    exact despachar_marco env d _ _ k kp hne
  · intro k kp hk hlen hne
    rw [procesar_del env d k hk hlen]
    show buscar (unlink env d k) kp = buscar d kp
    unfold unlink
    split
    · rfl
    · exact buscar_quitar_otro d k kp hne
  · intro k hk hlen
    rw [procesar_get env d k hk hlen, despachar_get_disco]
  · intro sp c sp1 hsp hc hsp1
    rw [utf8_salto, procesar_sin_clave env d sp c sp1 [] hsp hc hsp1]
  · intro sp c sp1 k resto hsp hc hc10 hsp1 hk hresto hlen h1 h2 h3
    rw [utf8_espacio] at hresto hlen ⊢
    rw [utf8_salto] at hlen ⊢
    have hform : sp ++ c ++ [32] ++ sp1 ++ k ++ resto ++ [10]
        = sp ++ c ++ 32 :: sp1 ++ k ++ resto ++ 10 :: [] := by simp
    obtain ⟨valor, hp⟩ := procesar_con_clave env d sp c sp1 k resto [] hsp hc hc10 hsp1 hk
      (by simpa using hresto) (by
        have : (sp ++ c ++ 32 :: sp1 ++ k ++ resto).length + 1
            = (sp ++ c ++ [32] ++ sp1 ++ k ++ resto ++ [10]).length := by
          simp only [List.length_append, List.length_cons, List.length_nil]
          omega
        rw [MAX_CMD_LEN]
        omega)
    rw [hform, hp, despachar_desconocido env d c k valor h1 h2 h3]
  · intro lectura
    cases lectura with
    | none => exact ⟨[], fun kp _ => rfl⟩
    | some bs =>
      obtain ⟨post, hp⟩ := procesar_comando_linea env d bs
      rw [hp]
      cases hcl : (analizar (linea_de bs ++ 0 :: post)).2.1 with
      | none =>
        rw [despachar_sin_clave]
        exact ⟨[], fun kp _ => rfl⟩
      | some k => exact ⟨k, fun kp hne => despachar_marco env d _ _ k kp hne⟩


theorem C16_frame_witness :
    clave_valida (utf8 "k") ∧ valor_valido (utf8 "v") ∧ utf8 "a" ≠ utf8 "k" ∧
    buscar (procesar_comando Entorno.sano [(utf8 "a", utf8 "1")]
        (some (pedido_set (utf8 "k") (utf8 "v")))).disco (utf8 "a")
      = buscar [(utf8 "a", utf8 "1")] (utf8 "a") :=
  ⟨by decide, by decide, by decide,
    (C16_frame Entorno.sano [(utf8 "a", utf8 "1")]).1 (utf8 "k") (utf8 "v") (utf8 "a")
      (by decide) (by decide) (by decide) (by decide)⟩

/-! ## Claim C17 -/

theorem linea_de_length (bs : Bytes) : (linea_de bs).length ≤ 1024 := by
  unfold linea_de
  have h1 : (((bs.take MAX_CMD_LEN).takeWhile fun b => b != 0).takeWhile
      fun b => b != 10).length ≤ ((bs.take MAX_CMD_LEN).takeWhile fun b => b != 0).length :=
    (List.takeWhile_sublist _).length_le
  have h2 : ((bs.take MAX_CMD_LEN).takeWhile fun b => b != 0).length
      ≤ (bs.take MAX_CMD_LEN).length := (List.takeWhile_sublist _).length_le
  have h3 : (bs.take MAX_CMD_LEN).length ≤ 1024 := by simp [MAX_CMD_LEN, List.length_take]
  omega

/-- The tokens of a line, with the room they take: when there is a value,
the command, the key (one byte at least), the two separators and the value
all lie in the line. -/
theorem analizar_forma (L : Bytes) (h0 : ∀ b ∈ L, b ≠ 0) :
    ∃ comando clave valor, (∀ post, analizar (L ++ 0 :: post) = (comando, clave, valor)) ∧
      ∀ c v, comando = some c → valor = some v →
        c.length + v.length + 3 ≤ L.length ∧ ∀ b ∈ v, b ≠ 0 := by
  rcases primera_palabra L h0 with h | ⟨sp, c, hsp, hc, h | ⟨r, h⟩⟩
  · exact ⟨none, none, none, fun post => analizar_ninguno L post h,
      fun c v hc _ => absurd hc (by simp)⟩
  · refine ⟨some c, none, none, fun post => ?_, fun c v _ hv => absurd hv (by simp)⟩
    rw [h, List.append_assoc]
    exact analizar_uno_fin sp c post hsp hc
  · have hr0 : ∀ b ∈ r, b ≠ 0 := fun b hb => h0 b (by simp [h, hb])
    rcases primera_palabra r hr0 with h1 | ⟨sp1, k, hsp1, hk, h1 | ⟨v, h1⟩⟩
    · refine ⟨some c, none, none, fun post => ?_, fun c v _ hv => absurd hv (by simp)⟩
      have : L ++ 0 :: post = sp ++ (c ++ 32 :: (r ++ 0 :: post)) := by simp [h]
      rw [this]
      exact analizar_uno_esp sp c r post hsp hc h1
    · refine ⟨some c, some k, none, fun post => ?_, fun c v _ hv => absurd hv (by simp)⟩
      have : L ++ 0 :: post = sp ++ (c ++ 32 :: (sp1 ++ (k ++ 0 :: post))) := by simp [h, h1]
      rw [this]
      exact analizar_dos_fin sp c sp1 k post hsp hc hsp1 hk
    · have hv0 : ∀ b ∈ v, b ≠ 0 := fun b hb => hr0 b (by simp [h1, hb])
      by_cases hv : v = []
      · refine ⟨some c, some k, none, fun post => ?_, fun c v _ hv => absurd hv (by simp)⟩
        have : L ++ 0 :: post = sp ++ (c ++ 32 :: (sp1 ++ (k ++ 32 :: 0 :: post))) := by
          simp [h, h1, hv]
        rw [this]
        exact analizar_dos_esp sp c sp1 k post hsp hc hsp1 hk
      · refine ⟨some c, some k, some v, fun post => ?_, ?_⟩
        · have : L ++ 0 :: post
              = sp ++ (c ++ 32 :: (sp1 ++ (k ++ 32 :: (v ++ 0 :: post)))) := by simp [h, h1]
          rw [this]
          exact analizar_tres sp c sp1 k v post hsp hc hsp1 hk hv0 hv
        · intro c2 v2 hc2 hv2
          cases hc2
          cases hv2
          have hk1 : 1 ≤ k.length := List.length_pos.2 hk.1
          refine ⟨?_, hv0⟩
          rw [h, h1]
          simp only [List.length_append, List.length_cons]
          omega

theorem valores_acotados_quitar (d : Disco) (k : Bytes) (h : valores_acotados d) :
    valores_acotados (quitar d k) :=
  fun e he => h e (List.mem_of_mem_filter he)

theorem valores_acotados_guardar (d : Disco) (k x : Bytes) (h : valores_acotados d)
    (hx : x.length ≤ 1018 ∧ ∀ b ∈ x, b ≠ 0) : valores_acotados (guardar d k x) := by
  intro e he
  rcases List.mem_cons.1 he with he | he
  · rw [he]
    exact hx
  · exact valores_acotados_quitar d k h e he

/-- A run of the handler keeps every file within 1018 bytes and free of
NUL, whatever the read delivers. -/
theorem procesar_comando_acotado (env : Entorno) (d : Disco) (lectura : Option Bytes)
    (h : valores_acotados d) : valores_acotados (procesar_comando env d lectura).disco := by
  cases lectura with
  | none => exact h
  | some bs =>
    obtain ⟨post, hp⟩ := procesar_comando_linea env d bs
    obtain ⟨comando, clave, valor, ha, hcota⟩ :=
      analizar_forma (linea_de bs) fun b hb => (linea_de_mem hb).1
    rw [hp, ha post]
    obtain ⟨resp, _, hf⟩ := despachar_forma env d comando clave valor
    rcases hf with hf | ⟨k, _, hf | ⟨x, hx, hf⟩⟩
    · rw [hf]
      exact h
    · rw [hf]
      exact valores_acotados_quitar d k h
    · rw [hf]
      refine valores_acotados_guardar d k x h ?_
      rcases hx with hx | ⟨hc, hv⟩
      · rw [hx]
        exact ⟨by decide, fun b hb => absurd hb (List.not_mem_nil _)⟩
      · have := hcota (utf8 "SET") x hc hv
        have hl := linea_de_length bs
        have h3 : (utf8 "SET").length = 3 := by decide
        exact ⟨by omega, this.2⟩

theorem bucle_cliente_retorna (d : Disco) (env : Entorno) (lectura : Option Bytes)
    (resto : List Turno) (h : (procesar_comando env d lectura).final = Final.retorna) :
    bucle d (Turno.cliente env lectura :: resto)
      = ⟨(bucle (procesar_comando env d lectura).disco resto).disco,
          (procesar_comando env d lectura).enviado
            :: (bucle (procesar_comando env d lectura).disco resto).respuestas,
          (bucle (procesar_comando env d lectura).disco resto).en_marcha⟩ := by
  rw [bucle]
  simp only [h]

theorem bucle_cliente_fin (d : Disco) (env : Entorno) (lectura : Option Bytes)
    (resto : List Turno) (h : (procesar_comando env d lectura).final ≠ Final.retorna) :
    bucle d (Turno.cliente env lectura :: resto)
      = ⟨(procesar_comando env d lectura).disco, [(procesar_comando env d lectura).enviado],
          false⟩ := by
  rw [bucle]
  cases hfin : (procesar_comando env d lectura).final
  · exact absurd hfin h
  · rfl
  · rfl

theorem bucle_acotado (turnos : List Turno) :
    ∀ d, valores_acotados d → valores_acotados (bucle d turnos).disco := by
  induction turnos with
  | nil => exact fun d h => h
  | cons t resto ih =>
    intro d h
    cases t with
    | accept_falla => exact ih d h
    | cliente env lectura =>
      have hr := procesar_comando_acotado env d lectura h
      by_cases hfin : (procesar_comando env d lectura).final = Final.retorna
      · rw [bucle_cliente_retorna d env lectura resto hfin]
        exact ih _ hr
      · rw [bucle_cliente_fin d env lectura resto hfin]
        exact hr

theorem main_acotado (f1 f2 f3 : Bool) (turnos : List Turno) :
    valores_acotados (main f1 f2 f3 [] turnos).disco := by
  have hv : valores_acotados ([] : Disco) := fun e he => absurd he (List.not_mem_nil _)
  unfold main
  split
  · exact hv
  · split
    · exact hv
    · split
      · exact hv
      · exact bucle_acotado turnos [] hv

theorem buscar_mem (d : Disco) (k s : Bytes) (h : buscar d k = some s) : (k, s) ∈ d := by
  induction d with
  | nil => exact absurd h (by simp [buscar])
  | cons e d ih =>
    obtain ⟨a, b⟩ := e
    rw [buscar_cons] at h
    by_cases h1 : a = k
    · rw [if_pos h1] at h
      cases h
      rw [h1]
      exact List.mem_cons_self _ _
    · rw [if_neg h1] at h
      exact List.mem_cons_of_mem _ (ih h)

/-- C17: values written through the protocol are never truncated by GET.
In the directory that the server reaches from the empty one, over any turns
of its accept loop (any clients, any reads, any outcomes of the system
calls), every file holds at most 1018 bytes (1024 minus `SET`, two spaces and
a key of one byte) and no NUL byte; so it is shorter than the 4095 bytes that
GET reads, and `GET k` on a file holding `s`, with open and read succeeding,
answers `OK\n`, the whole of `s`, and a newline. -/
theorem C17_stored_values_returned_whole (f1 f2 f3 : Bool) (turnos : List Turno)
    (env : Entorno) (k s : Bytes) (hk : clave_valida k) (hlen : (pedido_get k).length ≤ 1024)
    (hb : buscar (main f1 f2 f3 [] turnos).disco k = some s)
    (h3 : env.falla_open_lectura = false) (h4 : env.falla_read = false) :
    s.length ≤ 1018 ∧ s.length < 4095 ∧ (∀ b ∈ s, b ≠ 0) ∧
    (procesar_comando env (main f1 f2 f3 [] turnos).disco (some (pedido_get k))).enviado
      = [utf8 "OK\n" ++ s ++ utf8 "\n"] := by
  have hs : s.length ≤ 1018 ∧ ∀ b ∈ s, b ≠ 0 :=
    main_acotado f1 f2 f3 turnos (k, s) (buscar_mem _ k s hb)
  refine ⟨hs.1, by have := hs.1; omega, hs.2, ?_⟩
  rw [procesar_get_presente env _ k s hk hlen hb hs.2 h3 h4,
    List.take_of_length_le (by have := hs.1; omega)]

theorem C17_stored_values_returned_whole_witness :
    clave_valida (utf8 "k") ∧
    buscar (main false false false []
        [Turno.cliente Entorno.sano (some (utf8 "SET k a b\n"))]).disco (utf8 "k")
      = some (utf8 "a b") ∧
    (utf8 "a b").length ≤ 1018 ∧ (utf8 "a b").length < 4095 ∧ (∀ b ∈ utf8 "a b", b ≠ 0) ∧
    (procesar_comando Entorno.sano
        (main false false false []
          [Turno.cliente Entorno.sano (some (utf8 "SET k a b\n"))]).disco
        (some (pedido_get (utf8 "k")))).enviado = [utf8 "OK\n" ++ utf8 "a b" ++ utf8 "\n"] := by
  have hset : procesar_comando Entorno.sano [] (some (utf8 "SET k a b\n"))
      = ⟨[(utf8 "k", utf8 "a b")], [RESPONSE_OK], Final.retorna⟩ :=
    procesar_set Entorno.sano [] (utf8 "k") (utf8 "a b") (by decide) (by decide) (by decide)
      rfl rfl
  have hmain : (main false false false []
      [Turno.cliente Entorno.sano (some (utf8 "SET k a b\n"))]).disco
      = [(utf8 "k", utf8 "a b")] := by
    rw [main]
    simp only [Bool.false_eq_true, if_false]
    rw [bucle_cliente_retorna _ _ _ _ (by rw [hset]), hset]
    rfl
  have hb : buscar (main false false false []
      [Turno.cliente Entorno.sano (some (utf8 "SET k a b\n"))]).disco (utf8 "k")
      = some (utf8 "a b") := by
    rw [hmain]
    decide
  exact ⟨by decide, hb,
    C17_stored_values_returned_whole false false false
      [Turno.cliente Entorno.sano (some (utf8 "SET k a b\n"))] Entorno.sano (utf8 "k")
      (utf8 "a b") (by decide) (by decide) hb rfl rfl⟩


/-! ## Claim C18 -/

theorem poner_copiar (n : Nat) (datos : Bytes) (h : datos.length < n) :
    (poner (copiar (List.replicate n 0) datos) datos.length 0).isSome = true := by
  unfold poner copiar
  rw [if_pos (by
    rw [List.length_append, List.length_drop, List.length_replicate]
    omega)]
  rfl

/-- C18: buffer indices stay in bounds.  When the read of the client
succeeds, the count `leidos` lies between 0 and 1024 and the store
`linea[leidos] = 0` falls inside the buffer of 1025 bytes; the read of the
file in GET either fails or returns a count `bytes` between 0 and 4095, and
then the store `contenido[bytes] = 0` falls inside the buffer of 4096 bytes;
and no run of the handler ends in the out-of-range branch. -/
theorem C18_indices_in_bounds (env : Entorno) (d : Disco) (lectura : Option Bytes)
    (bs archivo : Bytes) :
    (0 ≤ (read_cliente (some bs) (List.replicate (MAX_CMD_LEN + 1) 0) MAX_CMD_LEN).1 ∧
      (read_cliente (some bs) (List.replicate (MAX_CMD_LEN + 1) 0) MAX_CMD_LEN).1 ≤ 1024 ∧
      (poner (read_cliente (some bs) (List.replicate (MAX_CMD_LEN + 1) 0) MAX_CMD_LEN).2
        (read_cliente (some bs) (List.replicate (MAX_CMD_LEN + 1) 0) MAX_CMD_LEN).1.toNat
        0).isSome = true) ∧
    ((read_archivo env d archivo (List.replicate 4096 0) (4096 - 1)).1 < 0 ∨
      (0 ≤ (read_archivo env d archivo (List.replicate 4096 0) (4096 - 1)).1 ∧
        (read_archivo env d archivo (List.replicate 4096 0) (4096 - 1)).1 ≤ 4095 ∧
        (poner (read_archivo env d archivo (List.replicate 4096 0) (4096 - 1)).2
          (read_archivo env d archivo (List.replicate 4096 0) (4096 - 1)).1.toNat
          0).isSome = true)) ∧
    (procesar_comando env d lectura).final ≠ Final.fuera_de_rango := by
  refine ⟨?_, ?_, ?_⟩
  · have hlen : (bs.take MAX_CMD_LEN).length ≤ 1024 := by
      simp [MAX_CMD_LEN, List.length_take]
    simp only [read_cliente, Int.toNat_ofNat]
    refine ⟨Int.ofNat_nonneg _, by omega, ?_⟩
    exact poner_copiar (MAX_CMD_LEN + 1) (bs.take MAX_CMD_LEN) (by
      have : MAX_CMD_LEN + 1 = 1025 := rfl
      omega)
  · cases h4 : env.falla_read
    · right
      have hlen : (((buscar d archivo).getD []).take (4096 - 1)).length ≤ 4095 := by
        simp [List.length_take]
      simp only [read_archivo, h4, Bool.false_eq_true, if_false, Int.toNat_ofNat]
      refine ⟨Int.ofNat_nonneg _, by omega, ?_⟩
      exact poner_copiar 4096 _ (by omega)
    · left
      simp only [read_archivo, h4, if_true]
      decide
  · cases lectura with
    | none =>
      have h : procesar_comando env d none = ⟨d, [], Final.termina_proceso⟩ := rfl
      rw [h]
      exact fun h2 => Final.noConfusion h2
    | some bs2 =>
      obtain ⟨post, hp⟩ := procesar_comando_linea env d bs2
      obtain ⟨resp, _, hf⟩ := despachar_forma env d (analizar (linea_de bs2 ++ 0 :: post)).1
        (analizar (linea_de bs2 ++ 0 :: post)).2.1 (analizar (linea_de bs2 ++ 0 :: post)).2.2
      rw [hp]
      have hno : Final.retorna ≠ Final.fuera_de_rango := by decide
      rcases hf with hf | ⟨k, _, hf | ⟨x, _, hf⟩⟩ <;> rw [hf] <;> exact hno


/-! ## Claim C19 -/

/-- A line with a command word and a key that fits the read: the value
handed to the dispatch is what follows the one space after the key, NULL when
nothing follows; the runs of spaces before the command and before the key do
not show. -/
theorem procesar_con_clave_valor (env : Entorno) (d : Disco) (sp c sp1 k resto rest : Bytes)
    (hsp : espacios sp) (hc : palabra c) (hc10 : ∀ b ∈ c, b ≠ 10) (hsp1 : espacios sp1)
    (hk : clave_valida k) (hresto : resto = [] ∨ ∃ v, valor_valido v ∧ resto = 32 :: v)
    (hlen : (sp ++ c ++ 32 :: sp1 ++ k ++ resto).length ≤ MAX_CMD_LEN) :
    procesar_comando env d (some (sp ++ c ++ 32 :: sp1 ++ k ++ resto ++ 10 :: rest))
      = despachar env d (some c) (some k)
          (if resto.tail = [] then none else some resto.tail) := by
  have hX : ∀ b ∈ sp ++ c ++ 32 :: sp1 ++ k ++ resto, b ≠ 0 ∧ b ≠ 10 := by
    intro b hb
    simp only [List.mem_append, List.mem_cons, List.append_assoc, List.cons_append] at hb
    rcases hb with h | h | h | h | h | h
    · exact espacios_sin_nul hsp b h
    · exact ⟨(hc.2 b h).2, hc10 b h⟩
    · subst h; decide
    · exact espacios_sin_nul hsp1 b h
    · exact ⟨(hk.2 b h).2.2, (hk.2 b h).2.1⟩
    · rcases hresto with hr | ⟨v, hv, hr⟩
      · rw [hr] at h
        exact absurd h (List.not_mem_nil _)
      · rw [hr] at h
        rcases List.mem_cons.1 h with h | h
        · subst h; decide
        · exact ⟨(hv b h).2, (hv b h).1⟩
  have hL := linea_de_pedido _ rest hX hlen
  rcases hresto with hr | ⟨v, hv, hr⟩
  · subst hr
    rw [List.tail_nil, if_pos rfl]
    exact procesar_dos env d _ sp c sp1 k (Or.inl (by rw [hL]; simp)) hsp hc hsp1
      (clave_palabra hk)
  · subst hr
    rw [List.tail_cons]
    by_cases hve : v = []
    · subst hve
      rw [if_pos rfl]
      exact procesar_dos env d _ sp c sp1 k (Or.inr (by rw [hL]; simp)) hsp hc hsp1
        (clave_palabra hk)
    · rw [if_neg hve]
      exact procesar_tres env d _ sp c sp1 k v (by rw [hL]; simp) hsp hc hsp1
        (clave_palabra hk) hve

/-- C19: space handling of the tokenizer.  For every request that fits the
read, the runs of spaces before the command token and between the command and
the key are skipped: the handler gives the same result as on the request with
the command first and one space before the key (so `  GET   k\n` behaves as
`GET k\n`).  For SET the value starts right after the one space that ends the
key: `SET k  v\n` (two spaces) stores the value ` v`, with its leading space,
and `SET k \n` stores the empty value. -/
theorem C19_space_handling (env : Entorno) (d : Disco) (sp c sp1 k resto v : Bytes)
    (hsp : espacios sp) (hc : palabra c) (hc10 : ∀ b ∈ c, b ≠ 10) (hsp1 : espacios sp1)
    (hk : clave_valida k) (hresto : resto = [] ∨ ∃ w, valor_valido w ∧ resto = utf8 " " ++ w)
    (hlen : (sp ++ c ++ utf8 " " ++ sp1 ++ k ++ resto ++ utf8 "\n").length ≤ 1024)
    (hv : valor_valido v) (hlen2 : (utf8 "SET " ++ k ++ utf8 "  " ++ v ++ utf8 "\n").length ≤ 1024)
    (h1 : env.falla_open_escritura = false) (h2 : env.falla_write = false) :
    procesar_comando env d (some (sp ++ c ++ utf8 " " ++ sp1 ++ k ++ resto ++ utf8 "\n"))
      = procesar_comando env d (some (c ++ utf8 " " ++ k ++ resto ++ utf8 "\n")) ∧
    procesar_comando env d (some (utf8 "SET " ++ k ++ utf8 "  " ++ v ++ utf8 "\n"))
      = ⟨guardar d k (utf8 " " ++ v), [utf8 "OK\n"], Final.retorna⟩ ∧
    procesar_comando env d (some (utf8 "SET " ++ k ++ utf8 " \n"))
      = ⟨guardar d k [], [utf8 "OK\n"], Final.retorna⟩ := by
  have hdos : utf8 "  " = [32, 32] := by decide
  have huno : utf8 " \n" = [32, 10] := by decide
  rw [utf8_espacio] at hresto hlen ⊢
  rw [utf8_salto] at hlen hlen2 ⊢
  rw [hdos] at hlen2 ⊢
  rw [utf8_SET_esp] at hlen2
  refine ⟨?_, ?_, ?_⟩
  · have hresto2 : resto = [] ∨ ∃ w, valor_valido w ∧ resto = 32 :: w := by
      simpa using hresto
    have hl1 : (sp ++ c ++ 32 :: sp1 ++ k ++ resto).length ≤ MAX_CMD_LEN := by
      have : (sp ++ c ++ 32 :: sp1 ++ k ++ resto).length + 1
          = (sp ++ c ++ [32] ++ sp1 ++ k ++ resto ++ [10]).length := by
        simp only [List.length_append, List.length_cons, List.length_nil]
        omega
      rw [MAX_CMD_LEN]
      omega
    have hl2 : (([] : Bytes) ++ c ++ 32 :: [] ++ k ++ resto).length ≤ MAX_CMD_LEN := by
      simp only [List.length_append, List.length_cons, List.length_nil] at hl1 ⊢
      omega
    have e1 := procesar_con_clave_valor env d sp c sp1 k resto [] hsp hc hc10 hsp1 hk hresto2 hl1
    have e2 := procesar_con_clave_valor env d [] c [] k resto [] espacios_nil hc hc10
      espacios_nil hk hresto2 hl2
    have f1 : sp ++ c ++ [32] ++ sp1 ++ k ++ resto ++ [10]
        = sp ++ c ++ 32 :: sp1 ++ k ++ resto ++ 10 :: [] := by simp
    have f2 : c ++ [32] ++ k ++ resto ++ [10]
        = ([] : Bytes) ++ c ++ 32 :: [] ++ k ++ resto ++ 10 :: [] := by simp
    rw [f1, f2, e1, e2]
  · have hv2 : valor_valido (32 :: v) := by
      intro b hb
      rcases List.mem_cons.1 hb with h | h
      · subst h; decide
      · exact hv b h
    have hform : utf8 "SET " ++ k ++ [32, 32] ++ v ++ [10] = pedido_set k (32 :: v) := by
      simp [pedido_set, utf8_espacio, utf8_salto]
    have hl : (pedido_set k (32 :: v)).length ≤ MAX_CMD_LEN := by
      rw [← hform, utf8_SET_esp]
      exact hlen2
    rw [hform, procesar_set env d k (32 :: v) hk hv2 hl h1 h2]
    rfl
  · have hform : utf8 "SET " ++ k ++ utf8 " \n" = pedido_set k [] := by
      simp [pedido_set, utf8_espacio, utf8_salto, huno]
    have hl : (pedido_set k []).length ≤ MAX_CMD_LEN := by
      rw [pedido_set_length]
      simp only [List.length_append, List.length_cons, List.length_nil] at hlen2 ⊢
      rw [MAX_CMD_LEN]
      omega
    rw [hform, procesar_set env d k [] hk (fun b hb => absurd hb (List.not_mem_nil _)) hl h1 h2]
    rfl

theorem C19_space_handling_witness :
    espacios (utf8 "  ") ∧ palabra (utf8 "GET") ∧ clave_valida (utf8 "k") ∧
    valor_valido (utf8 "v") ∧
    procesar_comando Entorno.sano [(utf8 "k", utf8 "1")]
        (some (utf8 "  " ++ utf8 "GET" ++ utf8 " " ++ utf8 "  " ++ utf8 "k" ++ [] ++ utf8 "\n"))
      = procesar_comando Entorno.sano [(utf8 "k", utf8 "1")]
        (some (utf8 "GET" ++ utf8 " " ++ utf8 "k" ++ [] ++ utf8 "\n")) ∧
    procesar_comando Entorno.sano [(utf8 "k", utf8 "1")]
        (some (utf8 "SET " ++ utf8 "k" ++ utf8 "  " ++ utf8 "v" ++ utf8 "\n"))
      = ⟨guardar [(utf8 "k", utf8 "1")] (utf8 "k") (utf8 " " ++ utf8 "v"), [utf8 "OK\n"],
          Final.retorna⟩ ∧
    procesar_comando Entorno.sano [(utf8 "k", utf8 "1")]
        (some (utf8 "SET " ++ utf8 "k" ++ utf8 " \n"))
      = ⟨guardar [(utf8 "k", utf8 "1")] (utf8 "k") [], [utf8 "OK\n"], Final.retorna⟩ :=
  ⟨by decide, by decide, by decide, by decide,
    C19_space_handling Entorno.sano [(utf8 "k", utf8 "1")] (utf8 "  ") (utf8 "GET") (utf8 "  ")
      (utf8 "k") [] (utf8 "v") (by decide) (by decide) (by decide) (by decide) (by decide)
      (Or.inl rfl) (by decide) (by decide) (by decide) rfl rfl⟩

end ServerTcp
